import Mathlib

/-!
Verification development for the Salesforce Architecture and Best Practices
Advisor repository.  The Python sources are shallowly embedded as executable
Lean definitions:

* string-processing helpers mirror the Python string operations used by the
  code (substring tests, find and rfind, strip, lower, split),
* hashlib.md5 is implemented in full (RFC 1321) so that chunk-id and
  fingerprint computations are concrete,
* the metadata filter and chunking pipeline of document_processor.py,
* the directory fingerprint of rag_system.py,
* the governor-limits calculator (with a small json.loads model) and the
  line scanner of the Apex code reviewer from salesforce_tools.py,
* the query orchestrator of rag_system.py, parameterised over its external
  collaborators (validator, retriever, generation model, HTML unescaping and
  the two string-to-string tools), and
* the add and remove index operations, parameterised over the vector store.

Machine integers do not occur (Python integers are unbounded); fallible
Python code is modelled in the Except monad.
-/

namespace SFAdvisor

set_option maxRecDepth 20000

/-! ### Character and string helpers (Python string operations) -/

/-- Python str.lower restricted to the character-wise case map. -/
def lowerCL (l : List Char) : List Char := l.map Char.toLower

def lowerStr (s : String) : String := ⟨lowerCL s.data⟩

/-- needle occurs at the head of the list. -/
def prefixCL : List Char → List Char → Bool
  | [], _ => true
  | _ :: _, [] => false
  | a :: as, b :: bs => a = b && prefixCL as bs

/-- Python substring containment, needle occurs anywhere (empty needle: true). -/
def containsCL (needle : List Char) : List Char → Bool
  | [] => prefixCL needle []
  | c :: cs => prefixCL needle (c :: cs) || containsCL needle cs

/-- Python `needle in hay`. -/
def pyIn (needle hay : String) : Bool := containsCL needle.data hay.data

/-- index of the first occurrence of the substring, if any (Python str.find). -/
def idxOfCL (needle : List Char) : List Char → Option Nat
  | [] => if prefixCL needle [] then some 0 else none
  | c :: cs =>
      if prefixCL needle (c :: cs) then some 0
      else match idxOfCL needle cs with
           | some i => some (i + 1)
           | none => none

/-- index of the last occurrence of the substring, if any (Python str.rfind). -/
def rIdxOfCL (needle : List Char) : List Char → Option Nat
  | [] => if prefixCL needle [] then some 0 else none
  | c :: cs =>
      match rIdxOfCL needle cs with
      | some i => some (i + 1)
      | none => if prefixCL needle (c :: cs) then some 0 else none

/-- Python str.find; -1 when absent. -/
def pyFind (hay needle : String) : Int :=
  match idxOfCL needle.data hay.data with
  | some i => (i : Int)
  | none => -1

/-- Python str.rfind; -1 when absent. -/
def pyRFind (hay needle : String) : Int :=
  match rIdxOfCL needle.data hay.data with
  | some i => (i : Int)
  | none => -1

/-- Python str.strip character class (whitespace). -/
def isPyWs (c : Char) : Bool :=
  c = ' ' || c = '\t' || c = '\n' || c = '\x0d' || c = '\x0b' || c = '\x0c'

def stripCL (l : List Char) : List Char :=
  ((l.dropWhile isPyWs).reverse.dropWhile isPyWs).reverse

/-- Python str.strip(). -/
def pyStrip (s : String) : String := ⟨stripCL s.data⟩

/-- Python str.split(sep) for a one-character separator. -/
def splitCharCL (sep : Char) : List Char → List (List Char)
  | [] => [[]]
  | c :: cs =>
      match splitCharCL sep cs with
      | [] => [[c]]
      | h :: t => if c = sep then [] :: h :: t else (c :: h) :: t

def splitLines (s : String) : List String :=
  (splitCharCL '\n' s.data).map (fun l => ⟨l⟩)

/-- join a list of character lists with a separator (Python str.join). -/
def joinCL (sep : List Char) : List (List Char) → List Char
  | [] => []
  | [x] => x
  | x :: y :: t => x ++ sep ++ joinCL sep (y :: t)

def countCh (c : Char) : List Char → Nat
  | [] => 0
  | x :: t => (if x = c then 1 else 0) + countCh c t

def chCL (c : Char) (l : List Char) : Bool := containsCL [c] l

def startsWithCL (p : List Char) (l : List Char) : Bool := prefixCL p l

def endsWithCL (p : List Char) (l : List Char) : Bool := prefixCL p.reverse l.reverse

def pyStartsWith (s p : String) : Bool := startsWithCL p.data s.data

def pyEndsWith (s p : String) : Bool := endsWithCL p.data s.data

/-- lexicographic comparison on code points (Python string ordering). -/
def leCL : List Char → List Char → Bool
  | [], _ => true
  | _ :: _, [] => false
  | a :: as, b :: bs =>
      if a.toNat < b.toNat then true
      else if b.toNat < a.toNat then false
      else leCL as bs

/-- stable insertion sort (models Python sorted). -/
def insortBy (le : α → α → Bool) (x : α) : List α → List α
  | [] => [x]
  | y :: t => if le x y then x :: y :: t else y :: insortBy le x t

def sortByCL (le : α → α → Bool) : List α → List α
  | [] => []
  | x :: t => insortBy le x (sortByCL le t)

/-! ### Decimal numerals -/

def digitChar : Nat → Char
  | 0 => '0' | 1 => '1' | 2 => '2' | 3 => '3' | 4 => '4'
  | 5 => '5' | 6 => '6' | 7 => '7' | 8 => '8' | _ => '9'

def natDecAux : Nat → Nat → List Char
  | 0, _ => []
  | fuel + 1, n =>
      if n < 10 then [digitChar n]
      else natDecAux fuel (n / 10) ++ [digitChar (n % 10)]

/-- decimal numeral of a natural number (Python str of a nonnegative int). -/
def natDec (n : Nat) : List Char := natDecAux (n + 1) n

def natRepr (n : Nat) : String := ⟨natDec n⟩

/-- decimal numeral of an integer (Python str of an int). -/
def intDec (i : Int) : List Char :=
  if i < 0 then '-' :: natDec i.natAbs else natDec i.natAbs

def isDig (c : Char) : Bool := '0' ≤ c && c ≤ '9'

/-! ### MD5 (hashlib.md5, RFC 1321), on byte lists -/

def m32 : Nat := 4294967296

def rotl (x n : Nat) : Nat := ((x <<< n) % m32) ||| (x >>> (32 - n))

def add32 (a b : Nat) : Nat := (a + b) % m32

def lnot32 (x : Nat) : Nat := x ^^^ (m32 - 1)

def md5K : List Nat :=
  [0xd76aa478, 0xe8c7b756, 0x242070db, 0xc1bdceee,
   0xf57c0faf, 0x4787c62a, 0xa8304613, 0xfd469501,
   0x698098d8, 0x8b44f7af, 0xffff5bb1, 0x895cd7be,
   0x6b901122, 0xfd987193, 0xa679438e, 0x49b40821,
   0xf61e2562, 0xc040b340, 0x265e5a51, 0xe9b6c7aa,
   0xd62f105d, 0x02441453, 0xd8a1e681, 0xe7d3fbc8,
   0x21e1cde6, 0xc33707d6, 0xf4d50d87, 0x455a14ed,
   0xa9e3e905, 0xfcefa3f8, 0x676f02d9, 0x8d2a4c8a,
   0xfffa3942, 0x8771f681, 0x6d9d6122, 0xfde5380c,
   0xa4beea44, 0x4bdecfa9, 0xf6bb4b60, 0xbebfbc70,
   0x289b7ec6, 0xeaa127fa, 0xd4ef3085, 0x04881d05,
   0xd9d4d039, 0xe6db99e5, 0x1fa27cf8, 0xc4ac5665,
   0xf4292244, 0x432aff97, 0xab9423a7, 0xfc93a039,
   0x655b59c3, 0x8f0ccc92, 0xffeff47d, 0x85845dd1,
   0x6fa87e4f, 0xfe2ce6e0, 0xa3014314, 0x4e0811a1,
   0xf7537e82, 0xbd3af235, 0x2ad7d2bb, 0xeb86d391]

def md5S : List Nat :=
  [7, 12, 17, 22, 7, 12, 17, 22, 7, 12, 17, 22, 7, 12, 17, 22,
   5, 9, 14, 20, 5, 9, 14, 20, 5, 9, 14, 20, 5, 9, 14, 20,
   4, 11, 16, 23, 4, 11, 16, 23, 4, 11, 16, 23, 4, 11, 16, 23,
   6, 10, 15, 21, 6, 10, 15, 21, 6, 10, 15, 21, 6, 10, 15, 21]

/-- the sixteen little-endian 32-bit words of a 64-byte block. -/
def toWords : List Nat → List Nat
  | b0 :: b1 :: b2 :: b3 :: rest =>
      (b0 + 256 * b1 + 65536 * b2 + 16777216 * b3) :: toWords rest
  | _ => []

def md5Step (w : List Nat) (st : Nat × Nat × Nat × Nat) (i : Nat) :
    Nat × Nat × Nat × Nat :=
  let (a, b, c, d) := st
  let (f, g) :=
    if i < 16 then ((b &&& c) ||| (lnot32 b &&& d), i)
    else if i < 32 then ((d &&& b) ||| (lnot32 d &&& c), (5 * i + 1) % 16)
    else if i < 48 then (b ^^^ c ^^^ d, (3 * i + 5) % 16)
    else (c ^^^ (b ||| lnot32 d), (7 * i) % 16)
  let tmp := add32 (add32 (add32 a f) (md5K.getD i 0)) (w.getD g 0)
  (d, add32 b (rotl tmp (md5S.getD i 0)), b, c)

def md5Block (st : Nat × Nat × Nat × Nat) (block : List Nat) :
    Nat × Nat × Nat × Nat :=
  let (a0, b0, c0, d0) := st
  let (a, b, c, d) := (List.range 64).foldl (md5Step (toWords block)) (a0, b0, c0, d0)
  (add32 a0 a, add32 b0 b, add32 c0 c, add32 d0 d)

def chunks64Aux : Nat → List Nat → List (List Nat)
  | 0, _ => []
  | _, [] => []
  | fuel + 1, l => l.take 64 :: chunks64Aux fuel (l.drop 64)

def chunks64 (l : List Nat) : List (List Nat) := chunks64Aux l.length l

def leBytes (n : Nat) : Nat → List Nat
  | 0 => []
  | k + 1 => (n % 256) :: leBytes (n / 256) k

def md5Pad (msg : List Nat) : List Nat :=
  let len := msg.length
  let padLen := (55 + 64 - len % 64) % 64 + 1
  msg ++ (128 :: List.replicate (padLen - 1) 0) ++ leBytes (len * 8) 8

def md5Bytes (msg : List Nat) : List Nat :=
  let (a, b, c, d) :=
    (chunks64 (md5Pad msg)).foldl md5Block
      (0x67452301, 0xefcdab89, 0x98badcfe, 0x10325476)
  leBytes a 4 ++ leBytes b 4 ++ leBytes c 4 ++ leBytes d 4

def hexDigit (n : Nat) : Char :=
  match n with
  | 0 => '0' | 1 => '1' | 2 => '2' | 3 => '3' | 4 => '4'
  | 5 => '5' | 6 => '6' | 7 => '7' | 8 => '8' | 9 => '9'
  | 10 => 'a' | 11 => 'b' | 12 => 'c' | 13 => 'd' | 14 => 'e'
  | _ => 'f'

def byteHex (b : Nat) : List Char := [hexDigit (b / 16), hexDigit (b % 16)]

/-- hashlib.md5(s.encode()).hexdigest() for an ASCII string. -/
def md5Hex (s : String) : String :=
  ⟨(md5Bytes (s.data.map Char.toNat)).flatMap byteHex⟩

/-- sanity: the RFC 1321 test vector for "abc". -/
theorem md5Hex_abc : md5Hex "abc" = "900150983cd24fb0d6963f7d28e17f72" := by
  decide

/-- sanity: the RFC 1321 test vector for the lowercase alphabet. -/
theorem md5Hex_alphabet :
    md5Hex "abcdefghijklmnopqrstuvwxyz" = "c3fcd3d76192e4007dfb496cca67e13b" := by
  decide

/-! ### Exact fractions (Python numbers; kernel-computable) -/

/-- an exact fraction with positive denominator; models the Python numeric
values flowing through the tools (Python floats are binary fractions and
all claim-relevant arithmetic is exact). -/
structure Frac where
  num : Int
  den : Int
deriving DecidableEq

def Frac.ofNat (n : Nat) : Frac := ⟨(n : Int), 1⟩

def Frac.mk' (n d : Int) : Frac := if d < 0 then ⟨-n, -d⟩ else ⟨n, d⟩

def Frac.mul (a b : Frac) : Frac := ⟨a.num * b.num, a.den * b.den⟩

def Frac.div (a b : Frac) : Frac := Frac.mk' (a.num * b.den) (a.den * b.num)

/-- a > b for fractions with positive denominators. -/
def Frac.gtb (a b : Frac) : Bool := b.num * a.den < a.num * b.den

/-! ### document_processor.py -/

/-- Python values that can appear in chunk metadata. -/
inductive MVal where
  | mStr : String → MVal
  | mInt : Int → MVal
  | mFloat : Frac → MVal
  | mBool : Bool → MVal
  | mNone : MVal
  | mList : List MVal → MVal
  | mDict : List (String × MVal) → MVal

mutual

/-- Python str() of a metadata value.  String, int and bool rendering is
exact; float and nested-container rendering is a faithful-shape model (no
claim depends on the exact text, only on its being a string). -/
def pyStrM : MVal → List Char
  | .mStr s => s.data
  | .mInt n => intDec n
  | .mFloat q => intDec q.num ++ '/' :: natDec q.den.natAbs
  | .mBool b => if b then "True".data else "False".data
  | .mNone => "None".data
  | .mList l => '[' :: pyStrList l ++ [']']
  | .mDict d => '\x7b' :: pyStrDict d ++ ['\x7d']

def pyStrList : List MVal → List Char
  | [] => []
  | [v] => pyStrM v
  | v :: w :: t => pyStrM v ++ ", ".data ++ pyStrList (w :: t)

def pyStrDict : List (String × MVal) → List Char
  | [] => []
  | [(k, v)] => '"' :: k.data ++ "\": ".data ++ pyStrM v
  | (k, v) :: e :: t => '"' :: k.data ++ "\": ".data ++ pyStrM v ++ ", ".data ++ pyStrDict (e :: t)

end

/-- json.dumps of a dict value (shape model, see pyStrM). -/
def jsonDumpsM (d : List (String × MVal)) : List Char :=
  '\x7b' :: pyStrDict d ++ ['\x7d']

/-- value is one of the ChromaDB-compatible scalar types
(str, int, float, bool, None). -/
def isScalarM : MVal → Bool
  | .mStr _ => true
  | .mInt _ => true
  | .mFloat _ => true
  | .mBool _ => true
  | .mNone => true
  | .mList _ => false
  | .mDict _ => false

/-- one value transformation of filter_metadata_for_chromadb: scalars kept,
lists joined with commas, dicts JSON-dumped, anything else stringified. -/
def filterMVal : MVal → MVal
  | .mStr s => .mStr s
  | .mInt n => .mInt n
  | .mFloat q => .mFloat q
  | .mBool b => .mBool b
  | .mNone => .mNone
  | .mList l => .mStr ⟨joinCL ",".data (l.map pyStrM)⟩
  | .mDict d => .mStr ⟨jsonDumpsM d⟩

/-- document_processor.filter_metadata_for_chromadb. -/
def filter_metadata_for_chromadb (m : List (String × MVal)) : List (String × MVal) :=
  m.map (fun p => (p.1, filterMVal p.2))

/-- a langchain Document: page text plus metadata. -/
structure PDoc where
  page_content : String
  metadata : List (String × MVal)

/-- os.path.basename. -/
def basename (p : String) : String :=
  match (splitCharCL '/' p.data).reverse with
  | [] => p
  | last :: _ => ⟨last⟩

/-- the static doc_type_mapping table: filename to (type, category, topics). -/
def doc_type_mapping : List (String × String × String × String) :=
  [("salesforce_apex_developer_guide.pdf",
    ("development", "core_programming", "apex,triggers,classes,governor_limits")),
   ("salesforce_security_impl_guide.pdf",
    ("security", "implementation", "authentication,authorization,data_security")),
   ("integration_patterns_and_practices.pdf",
    ("integration", "architecture", "apis,patterns,enterprise_integration")),
   ("sfdx_dev.pdf",
    ("devops", "development_lifecycle", "sfdx,deployment,version_control")),
   ("salesforce_soql_sosl.pdf",
    ("data", "querying", "soql,sosl,query_optimization")),
   ("api_meta.pdf",
    ("api", "deployment", "metadata,deployment,automation")),
   ("api_rest.pdf",
    ("api", "integration", "rest,api_design,integration")),
   ("salesforce_app_limits_cheatsheet.pdf",
    ("performance", "best_practices", "governor_limits,performance,optimization")),
   ("platform_events.pdf",
    ("development", "core_programming",
     "apex,triggers,classes,governor_limits,performance,optimization"))]

def docInfoFor (filename : String) : String × String × String :=
  match doc_type_mapping.lookup filename with
  | some info => info
  | none => ("general", "unknown", "general")

/-- document_processor._generate_chunk_id: first 8 hex characters of
md5 over filename ++ "_" ++ page_num. -/
def _generate_chunk_id (filename : String) (page_num : Nat) : String :=
  ⟨(md5Hex (filename ++ "_" ++ natRepr page_num)).data.take 8⟩

/-- the clean per-page metadata assembled in load_pdf for page index i. -/
def cleanMetadata (filename : String) (i : Nat) (page_text : String) :
    List (String × MVal) :=
  let info := docInfoFor filename
  [("source_file", .mStr filename),
   ("document_type", .mStr info.1),
   ("category", .mStr info.2.1),
   ("topics", .mStr info.2.2),
   ("page_number", .mInt (i + 1)),
   ("chunk_id", .mStr (_generate_chunk_id filename i)),
   ("doc_size", .mInt page_text.data.length)]

/-- document_processor.load_pdf.  The PDF loader and the recursive text
splitter are external collaborators: the loader's output is the pages
argument, and split maps a page text to its chunk texts (langchain copies
the page metadata onto each chunk, which is modelled here). -/
def load_pdf (pdf_path : String) (pages : List String)
    (split : String → List String) : List PDoc :=
  let filename := basename pdf_path
  let processed := pages.enum.map (fun pi =>
    PDoc.mk pi.2 (filter_metadata_for_chromadb (cleanMetadata filename pi.1 pi.2)))
  let chunks := processed.flatMap (fun d =>
    (split d.page_content).map (fun t => PDoc.mk t d.metadata))
  chunks.enum.map (fun ci =>
    PDoc.mk ci.2.page_content
      (filter_metadata_for_chromadb
        (ci.2.metadata ++
         [("chunk_index", .mInt ci.1), ("chunk_size", .mInt ci.2.page_content.data.length)])))

/-! ### rag_system._get_pdf_fingerprint -/

/-- a file in the watched directory: name, stat size, stat mtime, and raw
byte content.  The fingerprint never reads the content; it is carried so
that content-independence is expressible.  mtime is modelled as a natural
number (st_mtime is a float in Python; only its identity matters). -/
structure FSFile where
  name : String
  size : Nat
  mtime : Nat
  content : List Nat

abbrev DirState := List FSFile

/-- the (name, size, mtime) projection of a directory listing. -/
def dirProj (s : DirState) : List (String × Nat × Nat) :=
  s.map (fun f => (f.name, f.size, f.mtime))

/-- fingerprint entry: filename with its stat size and mtime. -/
abbrev FpEntry := String × Nat × Nat

def entryLe (a b : FpEntry) : Bool := leCL a.1.data b.1.data

def pdfName (p : FpEntry) : Bool := endsWithCL ".pdf".data p.1.data

/-- the .pdf files of the directory in sorted filename order, reduced to
(name, size, mtime); mirrors the sorted-listdir loop of
_get_pdf_fingerprint (the name filter commutes with the stat projection). -/
def pdfEntries (s : DirState) : List FpEntry :=
  sortByCL entryLe ((dirProj s).filter pdfName)

/-- minimal JSON string escaping (quote and backslash; filenames with other
escape-requiring characters are outside the modelled alphabet). -/
def jsonEscape : List Char → List Char
  | [] => []
  | c :: t =>
      (if c = '"' then ['\\', '"'] else if c = '\\' then ['\\', '\\'] else [c]) ++
      jsonEscape t

/-- json.dumps rendering of one fingerprint entry, keys sorted
("modified" before "size"). -/
def entryChars (e : FpEntry) : List Char :=
  '"' :: jsonEscape e.1.data ++ "\": \x7b\"modified\": ".data ++ natDec e.2.2 ++
    ", \"size\": ".data ++ natDec e.2.1 ++ ['\x7d']

def joinEntries : List FpEntry → List Char
  | [] => []
  | [e] => entryChars e
  | e :: f :: t => entryChars e ++ ", ".data ++ joinEntries (f :: t)

/-- json.dumps(pdf_info, sort_keys=True) of _get_pdf_fingerprint. -/
def infoStr (s : DirState) : String :=
  ⟨'\x7b' :: joinEntries (pdfEntries s) ++ ['\x7d']⟩

/-- the fingerprint with the hash function abstracted; the fingerprint is
the hash of the serialised sorted (filename, size, mtime) mapping. -/
def fpWith (h : String → String) (s : DirState) : String := h (infoStr s)

/-- rag_system._get_pdf_fingerprint with the concrete md5 hash. -/
def _get_pdf_fingerprint (s : DirState) : String := fpWith md5Hex s

/-! ### a json.loads model (the subset used by the tool payloads) -/

inductive JValue where
  | jNull : JValue
  | jBool : Bool → JValue
  | jNum : Frac → JValue
  | jStr : String → JValue
  | jArr : List JValue → JValue
  | jObj : List (String × JValue) → JValue

def isJWs (c : Char) : Bool := c = ' ' || c = '\t' || c = '\n' || c = '\x0d'

def skipJWs (l : List Char) : List Char := l.dropWhile isJWs

def digitsToNat (l : List Char) : Nat :=
  l.foldl (fun a c => a * 10 + (c.toNat - 48)) 0

def hexVal (c : Char) : Option Nat :=
  if isDig c then some (c.toNat - 48)
  else if 'a' ≤ c && c ≤ 'f' then some (c.toNat - 87)
  else if 'A' ≤ c && c ≤ 'F' then some (c.toNat - 55)
  else none

/-- JSON string body after the opening quote, with the common escapes. -/
def parseJStrAux : Nat → List Char → List Char → Except String (String × List Char)
  | 0, _, _ => .error "string fuel"
  | _ + 1, _, [] => .error "unterminated string"
  | fuel + 1, acc, c :: rest =>
      if c = '"' then .ok (⟨acc.reverse⟩, rest)
      else if c = '\\' then
        match rest with
        | [] => .error "bad escape"
        | e :: rest2 =>
            if e = 'u' then
              match rest2 with
              | h1 :: h2 :: h3 :: h4 :: rest3 =>
                  match hexVal h1, hexVal h2, hexVal h3, hexVal h4 with
                  | some a, some b, some c2, some d =>
                      parseJStrAux fuel
                        (Char.ofNat (((a * 16 + b) * 16 + c2) * 16 + d) :: acc) rest3
                  | _, _, _, _ => .error "bad unicode escape"
              | _ => .error "bad unicode escape"
            else
              let dec : Option Char :=
                if e = '"' then some '"' else if e = '\\' then some '\\'
                else if e = '/' then some '/' else if e = 'n' then some '\n'
                else if e = 't' then some '\t' else if e = 'r' then some '\x0d'
                else if e = 'b' then some '\x08' else if e = 'f' then some '\x0c'
                else none
              match dec with
              | some ch => parseJStrAux fuel (ch :: acc) rest2
              | none => .error "bad escape"
      else parseJStrAux fuel (c :: acc) rest

/-- JSON number: sign, integer part, optional fraction, optional exponent,
as an exact fraction. -/
def parseJNum (l : List Char) : Except String (Frac × List Char) :=
  let (neg, l1) : Bool × List Char :=
    match l with
    | c :: t => if c = '-' then (true, t) else (false, l)
    | [] => (false, l)
  let intPart := l1.takeWhile isDig
  let l2 := l1.dropWhile isDig
  if intPart = [] then .error "bad number"
  else
    let (fr, l3) : List Char × List Char :=
      match l2 with
      | c :: t => if c = '.' then (t.takeWhile isDig, t.dropWhile isDig) else ([], l2)
      | [] => ([], l2)
    let (expVal, l4) : Int × List Char :=
      match l3 with
      | c :: t =>
          if c = 'e' || c = 'E' then
            match t with
            | e1 :: t2 =>
                if e1 = '-' then
                  (-(digitsToNat (t2.takeWhile isDig) : Int), t2.dropWhile isDig)
                else if e1 = '+' then
                  ((digitsToNat (t2.takeWhile isDig) : Int), t2.dropWhile isDig)
                else ((digitsToNat (t.takeWhile isDig) : Int), t.dropWhile isDig)
            | [] => (0, l3)
          else (0, l3)
      | [] => (0, l3)
    let baseNum : Nat := digitsToNat intPart * 10 ^ fr.length + digitsToNat fr
    let num0 : Int :=
      if expVal < 0 then (baseNum : Int) else (baseNum : Int) * (10 : Int) ^ expVal.natAbs
    let den0 : Int :=
      if expVal < 0 then ((10 : Nat) ^ fr.length * 10 ^ expVal.natAbs : Nat)
      else ((10 : Nat) ^ fr.length : Nat)
    .ok (⟨if neg then -num0 else num0, den0⟩, l4)

/-- dict insertion: an existing key keeps its position and takes the new
value (CPython dict semantics). -/
def objInsert (k : String) (v : JValue) : List (String × JValue) → List (String × JValue)
  | [] => [(k, v)]
  | (k2, v2) :: t => if k2 = k then (k, v) :: t else (k2, v2) :: objInsert k v t

mutual

def parseJVal : Nat → List Char → Except String (JValue × List Char)
  | 0, _ => .error "value fuel"
  | fuel + 1, l =>
      match skipJWs l with
      | [] => .error "expecting value"
      | c :: rest =>
          if c = '\x7b' then parseJObj fuel [] true (skipJWs rest)
          else if c = '[' then parseJArr fuel [] true (skipJWs rest)
          else if c = '"' then
            match parseJStrAux (rest.length + 1) [] rest with
            | .ok (s, r) => .ok (.jStr s, r)
            | .error e => .error e
          else if c = 't' then
            if prefixCL "rue".data rest then .ok (.jBool true, rest.drop 3)
            else .error "bad literal"
          else if c = 'f' then
            if prefixCL "alse".data rest then .ok (.jBool false, rest.drop 4)
            else .error "bad literal"
          else if c = 'n' then
            if prefixCL "ull".data rest then .ok (.jNull, rest.drop 3)
            else .error "bad literal"
          else if isDig c || c = '-' then
            match parseJNum (c :: rest) with
            | .ok (q, r) => .ok (.jNum q, r)
            | .error e => .error e
          else .error "unexpected character"

def parseJObj : Nat → List (String × JValue) → Bool → List Char →
    Except String (JValue × List Char)
  | 0, _, _, _ => .error "object fuel"
  | fuel + 1, acc, first, l =>
      match skipJWs l with
      | [] => .error "unterminated object"
      | c :: rest =>
          if c = '\x7d' && first then .ok (.jObj acc, rest)
          else if c = '"' then
            match parseJStrAux (rest.length + 1) [] rest with
            | .error e => .error e
            | .ok (k, r1) =>
                match skipJWs r1 with
                | c2 :: r2 =>
                    if c2 = ':' then
                      match parseJVal fuel r2 with
                      | .error e => .error e
                      | .ok (v, r3) =>
                          match skipJWs r3 with
                          | c3 :: r4 =>
                              if c3 = ',' then parseJObj fuel (objInsert k v acc) false r4
                              else if c3 = '\x7d' then .ok (.jObj (objInsert k v acc), r4)
                              else .error "expecting comma"
                          | [] => .error "unterminated object"
                    else .error "expecting colon"
                | [] => .error "unterminated object"
          else .error "expecting property name"

def parseJArr : Nat → List JValue → Bool → List Char →
    Except String (JValue × List Char)
  | 0, _, _, _ => .error "array fuel"
  | fuel + 1, acc, first, l =>
      match skipJWs l with
      | [] => .error "unterminated array"
      | c :: rest =>
          if c = ']' && first then .ok (.jArr acc.reverse, rest)
          else
            match parseJVal fuel (c :: rest) with
            | .error e => .error e
            | .ok (v, r1) =>
                match skipJWs r1 with
                | c2 :: r2 =>
                    if c2 = ',' then parseJArr fuel (v :: acc) false r2
                    else if c2 = ']' then .ok (.jArr (v :: acc).reverse, r2)
                    else .error "expecting comma"
                | [] => .error "unterminated array"

end

/-- json.loads model: parse one value, demand only whitespace follows. -/
def json_loads (s : String) : Except String JValue :=
  match parseJVal (s.data.length + 1) s.data with
  | .error e => .error e
  | .ok (v, rest) => if skipJWs rest = [] then .ok v else .error "Extra data"

/-! ### salesforce_tools.governor_limits_calculator -/

inductive PyExc where
  | typeError : String → PyExc
  | valueError : String → PyExc
  | attributeError : String → PyExc
deriving DecidableEq

/-- the fixed synchronous governor-limit ceilings table. -/
def sync_limits : List (String × Nat) :=
  [("soql_queries", 100),
   ("dml_statements", 150),
   ("dml_records", 10000),
   ("heap_size_mb", 6),
   ("cpu_time_ms", 10000),
   ("callouts", 100),
   ("email_invocations", 10),
   ("future_calls", 50),
   ("queueable_jobs", 50)]

/-- numeric view of a JSON value under Python arithmetic (bool counts as
0 or 1, everything non-numeric has none and raises TypeError when used). -/
def toNumQ : JValue → Option Frac
  | .jNum q => some q
  | .jBool b => some (if b then Frac.ofNat 1 else Frac.ofNat 0)
  | _ => none

/-- Python str() of a JSON value as interpolated into the report
(integer-valued numbers render exactly; other shapes are faithful-shape
models, no claim depends on them). -/
def pyStrJ : JValue → String
  | .jNum q => if q.den = 1 then ⟨intDec q.num⟩ else ⟨intDec q.num ++ '/' :: natDec q.den.natAbs⟩
  | .jStr s => s
  | .jBool b => if b then "True" else "False"
  | .jNull => "None"
  | .jArr _ => "[...]"
  | .jObj _ => "\x7b...\x7d"

/-- round-half-up at one decimal; agrees with Python's %.1f on all values
arising in the claims (which are far from representation ties). -/
def fmt1 (q : Frac) : String :=
  let xn := q.num * 10
  let n : Int := Int.fdiv (2 * xn + q.den) (2 * q.den)
  let m := n.natAbs
  (if n < 0 then "-" else "") ++ natRepr (m / 10) ++ "." ++ ⟨[digitChar (m % 10)]⟩

def pyReplaceCh (old new : Char) (l : List Char) : List Char :=
  l.map (fun c => if c = old then new else c)

def pyTitleAux : Bool → List Char → List Char
  | _, [] => []
  | prevAlpha, c :: t =>
      if c.isAlpha then
        (if prevAlpha then c.toLower else c.toUpper) :: pyTitleAux true t
      else c :: pyTitleAux false t

/-- Python str.title() (ASCII letters). -/
def pyTitle (s : String) : String := ⟨pyTitleAux false s.data⟩

def statusGreen : String := "ðŸŸ¢"

def statusRed : String := "ðŸ”´"

def statusYellow : String := "ðŸŸ¡"

def limitsHeader : String := "ðŸ“Š **GOVERNOR LIMITS ANALYSIS**\n\n"

def bulletStr : String := "â€¢"

def criticalHeader : String := "ðŸš¨ **CRITICAL - NEAR LIMITS:**\n"

def warningsHeader : String := "âš ï¸ **WARNINGS:**\n"

def recsHeader : String := "ðŸ’¡ **RECOMMENDATIONS:**\n"

def referenceHeader : String := "\nðŸ“š **GOVERNOR LIMITS REFERENCE:**\n"

def provideOpsMsg : String := "Please provide operations data to analyze governor limits."

def invalidJsonMsg : String :=
  "Invalid JSON format. Please provide valid JSON or description of operations."

def formatHelpMsg : String :=
  "\n                        Please provide operations in JSON format or clear description. \n                        Example: \x7b\"soql_queries\": 50, \"dml_statements\": 75, \"heap_size_mb\": 3\x7d\n                        Or describe like: \"50 SOQL queries and 75 DML statements\"\n                        "

def typeErrorDiv : PyExc :=
  .typeError "unsupported operand type(s) for /: non-numeric value and int"

/-- the per-operation f-string f"\x7boperation\x7d: \x7bused\x7d/\x7blimit\x7d (\x7bpercentage:.1f\x7d%)". -/
def opEntryLine (operation : String) (used : JValue) (limit : Nat) (pct : Frac) : String :=
  operation ++ ": " ++ pyStrJ used ++ "/" ++ natRepr limit ++ " (" ++ fmt1 pct ++ "%)"

/-- the usage-percentage loop of governor_limits_calculator: accumulates the
per-operation report lines and the warning and critical entry lists; a
non-numeric value for a recognised operation raises TypeError at the
division, which propagates (it is outside the try of the parsing phase). -/
def limitsLoop : List (String × JValue) → String × List String × List String →
    Except PyExc (String × List String × List String)
  | [], acc => .ok acc
  | (operation, used) :: t, (report, warnings, criticals) =>
      match sync_limits.lookup operation with
      | none => limitsLoop t (report, warnings, criticals)
      | some limit =>
          match toNumQ used with
          | none => .error typeErrorDiv
          | some q =>
              let percentage := (q.div (Frac.ofNat limit)).mul (Frac.ofNat 100)
              let entry := opEntryLine operation used limit percentage
              let status :=
                if percentage.gtb (Frac.ofNat 80) then statusRed
                else if percentage.gtb (Frac.ofNat 60) then statusYellow
                else statusGreen
              let criticals2 :=
                if percentage.gtb (Frac.ofNat 80) then criticals ++ [entry] else criticals
              let warnings2 :=
                if percentage.gtb (Frac.ofNat 80) then warnings
                else if percentage.gtb (Frac.ofNat 60) then warnings ++ [entry]
                else warnings
              let line := status ++ " **" ++ pyTitle ⟨pyReplaceCh '_' ' ' operation.data⟩ ++
                ":** " ++ pyStrJ used ++ "/" ++ natRepr limit ++ " (" ++ fmt1 percentage ++ "%)\n"
              limitsLoop t (report ++ line, warnings2, criticals2)

/-- leftmost match of the pattern digits-whitespace-keyword, as
re.search(r"(\d+)\s*kw") on the lowercased text; yields the digit group. -/
def searchNumBefore (kw : List Char) : List Char → Option Nat
  | [] => none
  | c :: rest =>
      if isDig c then
        (if prefixCL kw ((rest.dropWhile isDig).dropWhile isPyWs)
         then some (digitsToNat (c :: rest.takeWhile isDig))
         else searchNumBefore kw rest)
      else searchNumBefore kw rest

/-- Python comparison value > n, raising TypeError on non-numeric values. -/
def pyGtNum (v : JValue) (n : Nat) : Except PyExc Bool :=
  match toNumQ v with
  | some q => .ok (q.gtb (Frac.ofNat n))
  | none => .error (.typeError "not supported between instances")

/-- outcome of the parsing phase (the try block) of the calculator. -/
inductive LimitsParse where
  | parsed : JValue → LimitsParse
  | invalidJson : LimitsParse
  | helpNeeded : LimitsParse

/-- best-effort digit extraction for soql and dml counts from free text. -/
def freeTextOps (operations : String) : List (String × JValue) :=
  let lower := lowerStr operations
  let soqlOps : List (String × JValue) :=
    if pyIn "soql" lower then
      match searchNumBefore "soql".data lower.data with
      | some n => [("soql_queries", .jNum (Frac.ofNat n))]
      | none => []
    else []
  let dmlOps : List (String × JValue) :=
    if pyIn "dml" lower then
      match searchNumBefore "dml".data lower.data with
      | some n => [("dml_statements", .jNum (Frac.ofNat n))]
      | none => []
    else []
  soqlOps ++ dmlOps

/-- the parsing phase: JSON when the payload starts with a brace, otherwise
best-effort digit extraction for soql and dml from free text. -/
def limitsParsePhase (operations : String) : LimitsParse :=
  if pyStartsWith operations "\x7b" then
    match json_loads operations with
    | .ok v => .parsed v
    | .error _ => .invalidJson
  else
    let ops := freeTextOps operations
    if ops.isEmpty then .helpNeeded else .parsed (.jObj ops)

def bulletLines (items : List String) : String :=
  items.foldl (fun acc i => acc ++ bulletStr ++ " " ++ i ++ "\n") ""

/-- the guard of one conditional recommendation: key present and its value
greater than the threshold (Python short-circuit and). -/
def recLookupGt (opsData : List (String × JValue)) (kk : String) (nn : Nat) :
    Except PyExc Bool :=
  match opsData.lookup kk with
  | some v => pyGtNum v nn
  | none => pure false

/-- the conditional-recommendations tail of the calculator: three guarded
usage recommendations (Python comparisons that can raise TypeError on
non-numeric values), the static recommendations, and the reference table. -/
def limitsRecsPhase (opsData : List (String × JValue)) (report : String) :
    Except PyExc String := do
  let soqlHigh ← recLookupGt opsData "soql_queries" 50
  let report := if soqlHigh then
      report ++ bulletStr ++ " High SOQL usage - Consider query optimization and caching\n"
    else report
  let dmlHigh ← recLookupGt opsData "dml_statements" 100
  let report := if dmlHigh then
      report ++ bulletStr ++ " High DML usage - Implement bulk operations and reduce individual DML calls\n"
    else report
  let heapHigh ← recLookupGt opsData "heap_size_mb" 4
  let report := if heapHigh then
      report ++ bulletStr ++ " High heap usage - Optimize data structures and consider processing in batches\n"
    else report
  .ok (report ++
    bulletStr ++ " Always test with large data volumes\n" ++
    bulletStr ++ " Implement proper error handling for limit exceptions\n" ++
    bulletStr ++ " Consider asynchronous processing for large operations\n" ++
    referenceHeader ++
    bulletStr ++ " SOQL Queries: 100 (sync) / 200 (async)\n" ++
    bulletStr ++ " DML Statements: 150 (sync) / 150 (async)\n" ++
    bulletStr ++ " DML Records: 10,000 per transaction\n" ++
    bulletStr ++ " Heap Size: 6 MB (sync) / 12 MB (async)\n" ++
    bulletStr ++ " CPU Time: 10s (sync) / 60s (async)\n")

/-- salesforce_tools.governor_limits_calculator. -/
def governor_limits_calculator (operations : String) : Except PyExc String :=
  if (pyStrip operations).data = [] then .ok provideOpsMsg
  else
    match limitsParsePhase operations with
    | .helpNeeded => .ok formatHelpMsg
    | .invalidJson => .ok invalidJsonMsg
    | .parsed opsVal =>
        match opsVal with
        | .jObj opsData => do
            let (reportOps, warnings, criticals) ←
              limitsLoop opsData (limitsHeader, [], [])
            let report := reportOps ++ "\n"
            let report :=
              if criticals ≠ [] then
                report ++ criticalHeader ++ bulletLines criticals ++ "\n"
              else report
            let report :=
              if warnings ≠ [] then
                report ++ warningsHeader ++ bulletLines warnings ++ "\n"
              else report
            limitsRecsPhase opsData (report ++ recsHeader)
        | _ => .error (.attributeError "items")

/-! ### salesforce_tools.apex_code_reviewer: the loop-tracking line scanner -/

def isWordChar (c : Char) : Bool := c.isAlphanum || c = '_'

/-- the first soql pattern: a bracket, then SELECT, then a closing bracket,
in order (re.search of a bracket-SELECT-bracket regex, IGNORECASE). -/
def soqlBracketSelect (line : List Char) : Bool :=
  let l := lowerCL line
  match l.dropWhile (fun c => !(c = '[')) with
  | [] => false
  | _ :: afterBracket => matchSelThenClose afterBracket
where
  matchSelThenClose : List Char → Bool
    | [] => false
    | c :: cs =>
        (prefixCL "select".data (c :: cs) && chCL ']' ((c :: cs).drop 6)) ||
        matchSelThenClose cs

/-- a literal pattern followed by optional whitespace and an opening
parenthesis, anywhere in the line (for the Database-call patterns). -/
def litWsParen (pat : List Char) : List Char → Bool
  | [] => false
  | c :: cs =>
      (prefixCL pat (c :: cs) &&
        (match ((c :: cs).drop pat.length).dropWhile isPyWs with
         | d :: _ => d = '('
         | [] => false)) ||
      litWsParen pat cs

/-- scan for a word-boundary-anchored literal whose continuation satisfies
k; prev carries the previous character for the boundary test. -/
def scanWB (pat : List Char) (k : List Char → Bool) : Option Char → List Char → Bool
  | _, [] => false
  | prev, c :: cs =>
      ((match prev with
        | none => true
        | some p => !isWordChar p) &&
        prefixCL pat (c :: cs) && k ((c :: cs).drop pat.length)) ||
      scanWB pat k (some c) cs

/-- a DML keyword pattern: word boundary, keyword, at least one space. -/
def dmlKeyword (kw : List Char) (l : List Char) : Bool :=
  scanWB kw (fun r => match r with
    | c :: _ => isPyWs c
    | [] => false) none l

/-- any of the dml_patterns, applied to the lowercased stripped line. -/
def dmlMatch (lineLower : List Char) : Bool :=
  dmlKeyword "insert".data lineLower ||
  dmlKeyword "update".data lineLower ||
  dmlKeyword "delete".data lineLower ||
  dmlKeyword "upsert".data lineLower ||
  litWsParen "database.insert".data lineLower ||
  litWsParen "database.update".data lineLower ||
  litWsParen "database.delete".data lineLower ||
  litWsParen "database.upsert".data lineLower

/-- any of the soql_patterns, applied case-insensitively to the raw line. -/
def soqlMatch (line : List Char) : Bool :=
  soqlBracketSelect line ||
  litWsParen "database.query".data (lowerCL line) ||
  litWsParen "database.querywithbinds".data (lowerCL line) ||
  litWsParen "database.getquerylocator".data (lowerCL line) ||
  litWsParen ".query".data (lowerCL line)

/-- body of the C-style for pattern after the opening parenthesis: a
semicolon whose prefix avoids colon and close-paren, then a semicolon with
no semicolon or close-paren between, then a close-paren. -/
def forCSemis : List Char → Bool
  | [] => false
  | c :: cs =>
      if c = ':' || c = ')' then false
      else if c = ';' then forCSecond cs || forCSemis cs
      else forCSemis cs
where
  forCSecond : List Char → Bool
    | [] => false
    | c :: cs =>
        if c = ')' then false
        else if c = ';' then chCL ')' cs
        else forCSecond cs

/-- body of the for-each pattern after the opening parenthesis: a colon
before the first close-paren, and a close-paren after it. -/
def forEachBody : List Char → Bool
  | [] => false
  | c :: cs =>
      if c = ')' then false
      else if c = ':' then chCL ')' cs
      else forEachBody cs

def afterParen (body : List Char → Bool) (r : List Char) : Bool :=
  match r.dropWhile isPyWs with
  | c :: rest => c = '(' && body rest
  | [] => false

/-- the loop_patterns list in order: C-style for, for-each, while, do. -/
def loopPatternMatch (lineLower : List Char) : Option String :=
  if scanWB "for".data (afterParen forCSemis) none lineLower then some "for"
  else if scanWB "for".data (afterParen forEachBody) none lineLower then some "for"
  else if scanWB "while".data (afterParen (fun rest => chCL ')' rest)) none lineLower then
    some "while"
  else if scanWB "do".data (fun r =>
      match r.dropWhile isPyWs with
      | c :: _ => c = '\x7b'
      | [] => false) none lineLower then some "do-while"
  else none

/-- scanner state: open-loop stack (line, type, recorded brace level, most
recent first), current brace level, issues, recommendations. -/
structure ScanState where
  stack : List (Nat × String × Int)
  level : Int
  issues : List String
  recs : List String

def soqlPatternsCount (line : List Char) : Nat :=
  (if soqlBracketSelect line then 1 else 0) +
  (if litWsParen "database.query".data (lowerCL line) then 1 else 0) +
  (if litWsParen "database.querywithbinds".data (lowerCL line) then 1 else 0) +
  (if litWsParen "database.getquerylocator".data (lowerCL line) then 1 else 0) +
  (if litWsParen ".query".data (lowerCL line) then 1 else 0)

def dmlPatternsCount (lineLower : List Char) : Nat :=
  (if dmlKeyword "insert".data lineLower then 1 else 0) +
  (if dmlKeyword "update".data lineLower then 1 else 0) +
  (if dmlKeyword "delete".data lineLower then 1 else 0) +
  (if dmlKeyword "upsert".data lineLower then 1 else 0) +
  (if litWsParen "database.insert".data lineLower then 1 else 0) +
  (if litWsParen "database.update".data lineLower then 1 else 0) +
  (if litWsParen "database.delete".data lineLower then 1 else 0) +
  (if litWsParen "database.upsert".data lineLower then 1 else 0)

def singleLineSoqlIssue (i : Nat) (loopType : String) : String :=
  "Line " ++ natRepr i ++ ": SOQL in single-line " ++ loopType ++
    " loop - Governor limit violation!"

def singleLineDmlIssue (i : Nat) (loopType : String) : String :=
  "Line " ++ natRepr i ++ ": DML in single-line " ++ loopType ++
    " loop - Governor limit violation!"

def soqlLoopIssue (i : Nat) (loopType : String) (loopLine : Nat) : String :=
  "Line " ++ natRepr i ++ ": SOQL query in " ++ loopType ++ " loop (started at line " ++
    natRepr loopLine ++ ") - Governor limit violation!"

def dmlLoopIssue (i : Nat) (loopType : String) (loopLine : Nat) : String :=
  "Line " ++ natRepr i ++ ": DML operation in " ++ loopType ++
    " loop (started at line " ++ natRepr loopLine ++ ") - Governor limit violation!"

def soqlRec : String := "Move SOQL queries outside loops and use bulk operations with collections"

def dmlRec : String := "Collect records in collections and perform bulk DML operations outside loops"

/-- one iteration of the apex_code_reviewer line loop for 1-based line i. -/
def scanLine (st : ScanState) (i : Nat) (line : String) : ScanState :=
  let lineClean := stripCL line.data
  let lineLower := lowerCL lineClean
  let openBr := countCh '\x7b' lineClean
  let closedBr := countCh '\x7d' lineClean
  -- loop-pattern phase (first matching pattern only)
  let st1 :=
    match loopPatternMatch lineLower with
    | none => st
    | some loopType =>
        if chCL '\x7b' lineClean then
          { st with stack := (i, loopType, st.level + (openBr : Int)) :: st.stack }
        else if chCL ';' lineClean then
          let nSoql := soqlPatternsCount line.data
          let nDml := dmlPatternsCount lineLower
          { st with
            issues := st.issues ++ List.replicate nSoql (singleLineSoqlIssue i loopType) ++
              List.replicate nDml (singleLineDmlIssue i loopType),
            recs := st.recs ++ List.replicate nSoql soqlRec ++ List.replicate nDml dmlRec }
        else
          { st with stack := (i, loopType, st.level + 1) :: st.stack }
  let st2 := { st1 with level := st1.level + (openBr : Int) }
  -- in-loop checks, skipped on lines with a closing brace
  let st3 :=
    match st2.stack with
    | [] => st2
    | (loopLine, loopType, _) :: _ =>
        if closedBr = 0 then
          let withSoql :=
            if soqlMatch line.data then
              { st2 with issues := st2.issues ++ [soqlLoopIssue i loopType loopLine],
                         recs := st2.recs ++ [soqlRec] }
            else st2
          if dmlMatch lineLower then
            { withSoql with issues := withSoql.issues ++ [dmlLoopIssue i loopType loopLine],
                            recs := withSoql.recs ++ [dmlRec] }
          else withSoql
        else st2
  let st4 := { st3 with level := st3.level - (closedBr : Int) }
  -- pop phase: keep entries with recorded level above the current level
  if closedBr > 0 && !st4.stack.isEmpty then
    { st4 with stack := st4.stack.filter (fun e => e.2.2 > st4.level) }
  else st4

def scanLinesAux (st : ScanState) (i : Nat) : List String → ScanState
  | [] => st
  | line :: rest => scanLinesAux (scanLine st i line) (i + 1) rest

/-- the loop-tracking scan of apex_code_reviewer over the formatted lines,
returning the critical-issue messages (in order of appearance). -/
def apexScanIssues (lines : List String) : List String :=
  (scanLinesAux ⟨[], 0, [], []⟩ 1 lines).issues

/-! ### rag_system.query (the answer seam) and its routing -/

inductive Intent where
  | LimitsCalc : Intent
  | CodeReview : Intent
  | QueryOptimize : Intent
  | GeneralRAG : Intent
deriving DecidableEq

def limitsKeywords : List String := ["governor", "limits", "calculate", "usage"]

/-- rule 1: a governor/limits keyword plus braces in the question. -/
def limitsCond (q : String) : Bool :=
  limitsKeywords.any (fun kw => pyIn kw (lowerStr q)) &&
    pyIn "\x7b" q && pyIn "\x7d" q

/-- rule 2: strong code indicators. -/
def codeCond (q : String) : Bool :=
  (["public class", "public static", "private class", "private static"].any
      (fun sc => pyIn sc q)) ||
  (pyIn "\x7b" q &&
    (["public", "private", "void", "return", "if(", "for(", "while("].any
      (fun w => pyIn w q))) ||
  (pyIn "trigger " (lowerStr q) && pyIn "\x7b" q)

/-- rule 3: a SELECT ... FROM in the question. -/
def soqlCond (q : String) : Bool :=
  pyIn "select" (lowerStr q) && pyIn "from" (lowerStr q)

/-- the ordered first-match-wins intent classification of rag_system.query. -/
def classify_intent (q : String) : Intent :=
  if limitsCond q then .LimitsCalc
  else if codeCond q then .CodeReview
  else if soqlCond q then .QueryOptimize
  else .GeneralRAG

/-- Python list slice l[a:b] for integer bounds already clamped at 0. -/
def sliceCL (l : List Char) (a b : Int) : List Char :=
  (l.take b.toNat).drop a.toNat

/-- payload extraction for the limits tool: the substring from the first
opening brace through the last closing brace (whole question as fallback). -/
def extractLimitsPayload (q : String) : String :=
  let jsonStart := pyFind q "\x7b"
  let jsonEnd := pyRFind q "\x7d" + 1
  if jsonStart ≥ 0 && jsonEnd > jsonStart then ⟨sliceCL q.data jsonStart jsonEnd⟩ else q

/-- code extraction for the reviewer: from the first present marker pattern
onward, else the first brace span, else the whole question. -/
def extractApexCode (q : String) : String :=
  let codeStart : Int :=
    if pyIn "public class" q then pyFind q "public class"
    else if pyIn "trigger" q then pyFind q "trigger"
    else if pyIn "public" q then pyFind q "public"
    else if pyIn "private" q then pyFind q "private"
    else -1
  if codeStart ≥ 0 then ⟨q.data.drop codeStart.toNat⟩
  else if pyIn "\x7b" q && pyIn "\x7d" q then
    let braceStart := pyFind q "\x7b"
    let rel := pyFind ⟨q.data.drop braceStart.toNat⟩ "\x7d"
    ⟨q.data.take (braceStart + rel + 1).toNat⟩
  else q

def sqlWords : List String := ["select", "from", "where", "order", "limit", "group", "having"]

def questionChars : List String := ["?", ":", "can", "you", "please", "optimize"]

def soqlCleanLoop : List String → List String → List String
  | acc, [] => acc
  | acc, line :: rest =>
      let l := pyStrip line
      if !l.data.isEmpty && sqlWords.any (fun w => pyIn w (lowerStr l)) then
        soqlCleanLoop (acc ++ [l]) rest
      else if !acc.isEmpty && !(questionChars.any (fun c => pyIn c l)) then
        soqlCleanLoop (acc ++ [l]) rest
      else soqlCleanLoop acc rest

def soqlTrailing : List String := [" ?", "?", " optimize", " query"]

def stripTrailingWords (q : String) : List String → String
  | [] => q
  | w :: t =>
      let q2 := if pyEndsWith (lowerStr q) w then
          pyStrip ⟨q.data.take (q.data.length - w.data.length)⟩
        else q
      stripTrailingWords q2 t

/-- query extraction for the optimizer: from the first select onward,
keeping SQL-keyword lines and continuation lines, with trailing
question words removed. -/
def extractSoqlQuery (q : String) : String :=
  let selectStart := pyFind (lowerStr q) "select"
  let queryPart : String := if selectStart ≥ 0 then ⟨q.data.drop selectStart.toNat⟩ else q
  let parts := soqlCleanLoop [] (splitLines queryPart)
  let finalQuery := if parts.isEmpty then pyStrip queryPart
    else ⟨joinCL " ".data (parts.map String.data)⟩
  stripTrailingWords finalQuery soqlTrailing

inductive PyVal where
  | vStr : String → PyVal
  | vDocs : List PDoc → PyVal
  | vMetas : List (List (String × MVal)) → PyVal

def limitsLabel : String := "📊 Governor Limits Calculator"

def apexLabel : String := "🔧 Apex Code Reviewer"

def soqlLabel : String := "⚡ SOQL Query Optimizer"

def noDocsAnswer : String :=
  "I couldn't find relevant information in the Salesforce documentation for your question. Please try rephrasing or asking about specific Salesforce topics like Apex, SOQL, governor limits, security, or integration patterns."

def apologyAnswer : String :=
  "I encountered an error processing your question. Please try again or rephrase your question."

/-- metadata.get(key, default) rendered by str() in an f-string. -/
def metaGetStr (m : List (String × MVal)) (k : String) (dflt : String) : String :=
  match m.lookup k with
  | some v => ⟨pyStrM v⟩
  | none => dflt

def excerptAt (n : Nat) (t : String) : String :=
  if t.data.length > n then ⟨t.data.take n⟩ ++ "..." else t

def relatedDocsSection (docs : List PDoc) : String :=
  if docs.isEmpty then ""
  else
    (docs.take 2).enum.foldl
      (fun acc id2 =>
        acc ++ "**" ++ natRepr (id2.1 + 1) ++ ". From " ++
          metaGetStr id2.2.metadata "source_file" "Salesforce Docs" ++ ":**\n" ++
          excerptAt 300 id2.2.page_content ++ "\n\n")
      "\n\n---\n\n## 📚 Related Salesforce Documentation:\n\n"

/-- the enhanced answer of the tool path. -/
def toolAnswer (label result : String) (docs : List PDoc) : String :=
  "## " ++ label ++ " Results:\n\n" ++ result ++ relatedDocsSection docs

def ragContext (docs : List PDoc) : String :=
  (docs.take 3).enum.foldl
    (fun acc id2 =>
      acc ++ "\n\n--- Source " ++ natRepr (id2.1 + 1) ++ ": " ++
        metaGetStr id2.2.metadata "source_file" "Unknown" ++ " ---\n" ++
        excerptAt 800 id2.2.page_content)
    ""

def ragPrompt (context question : String) : String :=
  "You are a Salesforce Architecture & Best Practices Advisor. Use the following context from official Salesforce documentation to provide expert guidance.\n\nContext from Salesforce Documentation:" ++
  context ++ "\n\nQuestion: " ++ question ++
  "\n\nInstructions:\n- Provide detailed, actionable advice based on the Salesforce documentation\n- Include specific examples and code snippets when relevant\n- Reference best practices and governor limits when applicable\n- Mention security considerations when relevant\n- Cite which Salesforce guide the information comes from\n- If the question involves architecture decisions, provide pros/cons of different approaches\n\nProvide a comprehensive answer:"

/-- the tool-path return value: all four keys including tool_used. -/
def toolPathResult (fr tu : String) (docs : List PDoc) : List (String × PyVal) :=
  [("answer", .vStr (toolAnswer tu fr docs)),
   ("sources", .vDocs (docs.take 3)),
   ("source_metadata", .vMetas ((docs.take 3).map (fun d => d.metadata))),
   ("tool_used", .vStr tu)]

/-- the regular-RAG path: retrieval, empty-hit fallback, prompt build, one
generation call whose exceptions are converted to the apology answer.  Both
return dictionaries carry only three keys. -/
def ragPath (retrieve : String → Except PyExc (List PDoc))
    (llm : String → Except PyExc String) (q : String) :
    Except PyExc (List (String × PyVal)) := do
  let docs ← retrieve q
  if docs.isEmpty then
    pure [("answer", .vStr noDocsAnswer),
          ("sources", .vDocs []),
          ("source_metadata", .vMetas [])]
  else
    let answer :=
      match llm (ragPrompt (ragContext docs) q) with
      | .ok r => r
      | .error _ => apologyAnswer
    pure [("answer", .vStr answer),
          ("sources", .vDocs docs),
          ("source_metadata", .vMetas (docs.map (fun d => d.metadata)))]

/-- rag_system.query, parameterised over its collaborators: the validator,
the retriever, the generation model, HTML unescaping, and the two
string-to-string tools (the limits tool is the embedded
governor_limits_calculator and may raise). -/
def query (validate : String → Bool × String × String)
    (retrieve : String → Except PyExc (List PDoc))
    (llm : String → Except PyExc String)
    (unesc : String → String)
    (apexTool soqlTool : String → String)
    (question : String) : Except PyExc (List (String × PyVal)) := do
  let v := validate question
  if !v.1 then .error (.valueError ("Input validation failed: " ++ v.2.1))
  else do
    let q := v.2.2
    let frtu : Option String × Option String ←
      if limitsCond q then do
        let operations := unesc (unesc (extractLimitsPayload q))
        let r ← governor_limits_calculator operations
        pure (some r, some limitsLabel)
      else if codeCond q then
        pure (some (apexTool (extractApexCode q)), some apexLabel)
      else if soqlCond q then
        pure (some (soqlTool (extractSoqlQuery q)), some soqlLabel)
      else pure (none, none)
    match frtu with
    | (some fr, some tu) =>
        if !fr.data.isEmpty && !tu.data.isEmpty then do
          let docs ← retrieve q
          pure (toolPathResult fr tu docs)
        else ragPath retrieve llm q
    | _ => ragPath retrieve llm q

/-! ### rag_system.add_documents_to_vectorstore and remove_documents_by_source -/

/-- rag_system._update_metadata_after_change: performs the metadata write but
catches every exception internally (warning only). -/
def updateMetadataSafe (updMeta : String → Except PyExc Unit) (p : String) :
    Except PyExc Unit :=
  match updMeta p with
  | _ => .ok ()

/-- rag_system.add_documents_to_vectorstore, parameterised over the store
operations; the except branch re-raises, so failures propagate. -/
def add_documents_to_vectorstore (vsAdd : List PDoc → Except PyExc Unit)
    (vsCount : Unit → Except PyExc Nat)
    (updMeta : String → Except PyExc Unit)
    (documents : List PDoc) (pdf_path : String) (update_metadata : Bool) :
    Except PyExc Unit := do
  if !documents.isEmpty then do
    vsAdd documents
    (if update_metadata then updateMetadataSafe updMeta pdf_path else pure ())
    let _ ← vsCount ()
    pure ()
  else pure ()

/-- rag_system.remove_documents_by_source: the except branch logs and does
not re-raise, so every store failure is swallowed. -/
def remove_documents_by_source (vsDelete : String → Except PyExc Unit)
    (updMeta : String → Except PyExc Unit) (pdf_path : String) :
    Except PyExc Unit :=
  let filename := basename pdf_path
  match (do
      let _ ← vsDelete filename
      updateMetadataSafe updMeta pdf_path : Except PyExc Unit) with
  | .ok _ => .ok ()
  | .error _ => .ok ()

/-! ### Properties of the decimal numeral -/

theorem natDecAux_irrel : ∀ (f1 f2 n : Nat), n < f1 → n < f2 →
    natDecAux f1 n = natDecAux f2 n := by
  intro f1
  induction f1 with
  | zero => intro f2 n h1 _; omega
  | succ g ih =>
      intro f2 n h1 h2
      cases f2 with
      | zero => omega
      | succ f =>
          simp only [natDecAux]
          by_cases hn : n < 10
          · simp [hn]
          · simp only [hn, if_false]
            have hdiv : n / 10 < n := Nat.div_lt_self (by omega) (by omega)
            rw [ih f (n / 10) (by omega) (by omega)]

theorem natDec_unfold (n : Nat) :
    natDec n = if n < 10 then [digitChar n]
      else natDec (n / 10) ++ [digitChar (n % 10)] := by
  show natDecAux (n + 1) n = _
  simp only [natDecAux]
  by_cases hn : n < 10
  · simp [hn]
  · simp only [hn, if_false]
    have hdiv : n / 10 < n := Nat.div_lt_self (by omega) (by omega)
    rw [natDecAux_irrel n (n / 10 + 1) (n / 10) (by omega) (by omega)]
    rfl

theorem natDec_ne_nil (n : Nat) : natDec n ≠ [] := by
  rw [natDec_unfold]
  split <;> simp

theorem isDig_digitChar (k : Nat) : isDig (digitChar k) = true := by
  rcases k with _|_|_|_|_|_|_|_|_|n <;> rfl

theorem natDec_digits : ∀ n, ∀ c ∈ natDec n, isDig c = true := by
  intro n
  induction n using Nat.strong_induction_on with
  | _ n ih =>
      intro c hc
      rw [natDec_unfold] at hc
      split at hc
      · rw [List.mem_singleton.mp hc]; exact isDig_digitChar n
      · rcases List.mem_append.mp hc with h | h
        · exact ih (n / 10) (Nat.div_lt_self (by omega) (by omega)) c h
        · rw [List.mem_singleton.mp h]; exact isDig_digitChar (n % 10)

theorem digitChar_inj10 : ∀ m, m < 10 → ∀ k, k < 10 → digitChar m = digitChar k → m = k := by
  decide

theorem natDec_inj : ∀ m n, natDec m = natDec n → m = n := by
  intro m
  induction m using Nat.strong_induction_on with
  | _ m ih =>
      intro n h
      rw [natDec_unfold m, natDec_unfold n] at h
      by_cases hm : m < 10 <;> by_cases hn : n < 10
      · rw [if_pos hm, if_pos hn] at h
        simp only [List.cons.injEq, and_true] at h
        exact digitChar_inj10 m hm n hn h
      · rw [if_pos hm, if_neg hn] at h
        have hlen := congrArg List.length h
        simp only [List.length_singleton, List.length_append] at hlen
        exact absurd (List.eq_nil_of_length_eq_zero (by omega)) (natDec_ne_nil (n / 10))
      · rw [if_neg hm, if_pos hn] at h
        have hlen := congrArg List.length h
        simp only [List.length_singleton, List.length_append] at hlen
        exact absurd (List.eq_nil_of_length_eq_zero (by omega)) (natDec_ne_nil (m / 10))
      · rw [if_neg hm, if_neg hn] at h
        obtain ⟨h1, h2⟩ := List.append_inj' h (by simp)
        have hmod : m % 10 = n % 10 := by
          refine digitChar_inj10 _ (Nat.mod_lt _ (by omega)) _ (Nat.mod_lt _ (by omega)) ?_
          simpa using h2
        have hdivq : m / 10 = n / 10 :=
          ih (m / 10) (Nat.div_lt_self (by omega) (by omega)) (n / 10) h1
        omega

/-- splitting a digit run at a non-digit boundary character is unambiguous. -/
theorem digits_boundary : ∀ (a b x y : List Char) (c d : Char),
    (∀ ch ∈ a, isDig ch = true) → (∀ ch ∈ b, isDig ch = true) →
    isDig c = false → isDig d = false →
    a ++ c :: x = b ++ d :: y → a = b ∧ c = d ∧ x = y := by
  intro a
  induction a with
  | nil =>
      intro b x y c d _ hb hc _ h
      cases b with
      | nil =>
          simp only [List.nil_append, List.cons.injEq] at h
          exact ⟨rfl, h.1, h.2⟩
      | cons b0 bs =>
          simp only [List.nil_append, List.cons_append, List.cons.injEq] at h
          have hb0 : isDig b0 = true := hb b0 (by simp)
          rw [← h.1, hc] at hb0
          simp at hb0
  | cons a0 as ih =>
      intro b x y c d ha hb hc hd h
      cases b with
      | nil =>
          simp only [List.cons_append, List.nil_append, List.cons.injEq] at h
          have ha0 : isDig a0 = true := ha a0 (by simp)
          rw [h.1, hd] at ha0
          simp at ha0
      | cons b0 bs =>
          simp only [List.cons_append, List.cons.injEq] at h
          obtain ⟨h1, h2, h3⟩ :=
            ih bs x y c d (fun ch hch => ha ch (by simp [hch]))
              (fun ch hch => hb ch (by simp [hch])) hc hd h.2
          exact ⟨by rw [h.1, h1], h2, h3⟩

/-! ### Injectivity of the fingerprint serialisation -/

theorem entryChars_inj (n : String) (s1 m1 s2 m2 : Nat) (r1 r2 : List Char)
    (h : entryChars (n, s1, m1) ++ r1 = entryChars (n, s2, m2) ++ r2) :
    s1 = s2 ∧ m1 = m2 ∧ r1 = r2 := by
  unfold entryChars at h
  simp only [List.cons_append, List.append_assoc, List.nil_append,
    List.cons.injEq, true_and] at h
  have h1 := List.append_cancel_left h
  simp only [List.cons.injEq, true_and, List.nil_append] at h1
  obtain ⟨hm, -, h3⟩ :=
    digits_boundary _ _ _ _ ',' ','
      (natDec_digits m1) (natDec_digits m2) (by rfl) (by rfl) h1
  simp only [List.cons.injEq, true_and, List.nil_append] at h3
  obtain ⟨hs, -, h5⟩ :=
    digits_boundary _ _ _ _ '\x7d' '\x7d'
      (natDec_digits s1) (natDec_digits s2) (by rfl) (by rfl) h3
  exact ⟨natDec_inj _ _ hs, natDec_inj _ _ hm, h5⟩

theorem joinEntries_inj : ∀ (l1 l2 : List FpEntry),
    l1.map Prod.fst = l2.map Prod.fst → joinEntries l1 = joinEntries l2 → l1 = l2 := by
  intro l1
  induction l1 with
  | nil =>
      intro l2 hm _
      cases l2 with
      | nil => rfl
      | cons e2 t2 => simp at hm
  | cons e1 t1 ih =>
      intro l2 hm hj
      cases l2 with
      | nil => simp at hm
      | cons e2 t2 =>
          obtain ⟨n1, s1, m1⟩ := e1
          obtain ⟨n2, s2, m2⟩ := e2
          simp only [List.map_cons, List.cons.injEq] at hm
          obtain ⟨hm1, hm2⟩ := hm
          subst hm1
          cases t1 with
          | nil =>
              cases t2 with
              | nil =>
                  have h0 : entryChars (n1, s1, m1) ++ [] =
                      entryChars (n1, s2, m2) ++ [] := by
                    simp only [List.append_nil]
                    simpa [joinEntries] using hj
                  obtain ⟨hs, hmm, -⟩ :=
                    entryChars_inj n1 s1 m1 s2 m2 [] [] h0
                  subst hs; subst hmm; rfl
              | cons => simp at hm2
          | cons f1 u1 =>
              cases t2 with
              | nil => simp at hm2
              | cons f2 u2 =>
                  have h0 : entryChars (n1, s1, m1) ++
                      (',' :: ' ' :: joinEntries (f1 :: u1)) =
                      entryChars (n1, s2, m2) ++
                      (',' :: ' ' :: joinEntries (f2 :: u2)) := by
                    simpa [joinEntries] using hj
                  obtain ⟨hs, hmm, hrest⟩ :=
                    entryChars_inj n1 s1 m1 s2 m2 _ _ h0
                  simp only [List.cons.injEq, true_and] at hrest
                  subst hs; subst hmm
                  rw [ih (f2 :: u2) hm2 hrest]

theorem infoStr_inj_on_names (s1 s2 : DirState)
    (hn : (pdfEntries s1).map Prod.fst = (pdfEntries s2).map Prod.fst)
    (h : infoStr s1 = infoStr s2) : pdfEntries s1 = pdfEntries s2 := by
  have h2 : '\x7b' :: joinEntries (pdfEntries s1) ++ ['\x7d'] =
      '\x7b' :: joinEntries (pdfEntries s2) ++ ['\x7d'] := congrArg String.data h
  simp only [List.cons.injEq, true_and, List.append_left_inj] at h2
  exact joinEntries_inj _ _ hn h2

/-! ### Claim C6 -/

/-- Claim C6: the directory fingerprint is a function of exactly the sorted
filename-to-(size, mtime) mapping: directory states with identical
filenames, sizes and modification times yield identical fingerprints
regardless of file byte content, and any change to a listed file's size or
mtime (same filename sequence, different entries) changes the fingerprint.
The md5 hash is abstracted as an arbitrary injective hex function applied
to the serialised mapping (the spec treats it as a content hash;
_get_pdf_fingerprint is fpWith md5Hex). -/
theorem C6_fingerprint_sorted_stat_mapping
    (h : String → String) (hinj : Function.Injective h) (s1 s2 : DirState) :
    (dirProj s1 = dirProj s2 → fpWith h s1 = fpWith h s2) ∧
    ((pdfEntries s1).map Prod.fst = (pdfEntries s2).map Prod.fst →
      pdfEntries s1 ≠ pdfEntries s2 → fpWith h s1 ≠ fpWith h s2) := by
  constructor
  · intro hp
    unfold fpWith infoStr pdfEntries
    rw [hp]
  · intro hn hne hfp
    exact hne (infoStr_inj_on_names s1 s2 hn (hinj hfp))

/-- witness for C6 at concrete directory states: same stats with different
content hash equal; a size change hashes differently (hash instantiated to
the identity, which is injective). -/
theorem C6_fingerprint_sorted_stat_mapping_witness :
    fpWith (fun x => x) [⟨"a.pdf", 10, 100, [1]⟩] =
      fpWith (fun x => x) [⟨"a.pdf", 10, 100, [2]⟩] ∧
    fpWith (fun x => x) [⟨"a.pdf", 10, 100, [1]⟩] ≠
      fpWith (fun x => x) [⟨"a.pdf", 11, 100, [1]⟩] :=
  ⟨(C6_fingerprint_sorted_stat_mapping (fun x => x) (fun _ _ hh => hh) _ _).1
      (by decide),
   (C6_fingerprint_sorted_stat_mapping (fun x => x) (fun _ _ hh => hh) _ _).2
      (by decide) (by decide)⟩

/-! ### Claim C4 -/

theorem isScalar_filterMVal (v : MVal) : isScalarM (filterMVal v) = true := by
  cases v <;> rfl

theorem filter_values_scalar (m : List (String × MVal)) :
    ∀ v ∈ (filter_metadata_for_chromadb m).map Prod.snd, isScalarM v = true := by
  intro v hv
  simp only [filter_metadata_for_chromadb, List.map_map, List.mem_map,
    Function.comp] at hv
  obtain ⟨p, -, rfl⟩ := hv
  exact isScalar_filterMVal p.2

theorem filter_lookup (m : List (String × MVal)) (k : String) :
    (filter_metadata_for_chromadb m).lookup k = (m.lookup k).map filterMVal := by
  induction m with
  | nil => rfl
  | cons p t ih =>
      obtain ⟨a, b⟩ := p
      simp only [filter_metadata_for_chromadb, List.map_cons, List.lookup]
      cases hk : k == a
      · simp only [hk]
        simpa [filter_metadata_for_chromadb] using ih
      · simp only [hk]
        rfl

theorem load_pdf_chunks_filtered (p : String) (pages : List String)
    (split : String → List String) :
    ∀ c ∈ load_pdf p pages split,
      ∃ m0, c.metadata = filter_metadata_for_chromadb m0 := by
  intro c hc
  simp only [load_pdf, List.mem_map] at hc
  obtain ⟨ci, -, rfl⟩ := hc
  exact ⟨_, rfl⟩

/-- Claim C4: filter_metadata_for_chromadb keeps exactly the key sequence,
turns every value into a ChromaDB scalar — lists become comma-joined
strings, dicts become JSON strings — and every chunk produced by load_pdf
has its metadata passed through this filter (so all chunk metadata values
are scalar) on every write path. -/
theorem C4_metadata_filter_scalars (m : List (String × MVal)) :
    ((filter_metadata_for_chromadb m).map Prod.fst = m.map Prod.fst) ∧
    (∀ v ∈ (filter_metadata_for_chromadb m).map Prod.snd, isScalarM v = true) ∧
    (∀ k l, m.lookup k = some (.mList l) →
      (filter_metadata_for_chromadb m).lookup k =
        some (.mStr ⟨joinCL ",".data (l.map pyStrM)⟩)) ∧
    (∀ k d, m.lookup k = some (.mDict d) →
      (filter_metadata_for_chromadb m).lookup k =
        some (.mStr ⟨jsonDumpsM d⟩)) ∧
    (∀ (pdf_path : String) (pages : List String) (split : String → List String),
      ∀ c ∈ load_pdf pdf_path pages split,
        (∃ m0, c.metadata = filter_metadata_for_chromadb m0) ∧
        ∀ v ∈ c.metadata.map Prod.snd, isScalarM v = true) := by
  refine ⟨?_, filter_values_scalar m, ?_, ?_, ?_⟩
  · simp [filter_metadata_for_chromadb, List.map_map, Function.comp]
  · intro k l hl
    rw [filter_lookup, hl]
    rfl
  · intro k d hd
    rw [filter_lookup, hd]
    rfl
  · intro pdf_path pages split c hc
    obtain ⟨m0, hm0⟩ := load_pdf_chunks_filtered pdf_path pages split c hc
    refine ⟨⟨m0, hm0⟩, ?_⟩
    rw [hm0]
    exact filter_values_scalar m0

/-- witness for C4: on a metadata mapping with a list value and a dict
value, the filter flattens them to the comma-joined and JSON strings. -/
theorem C4_metadata_filter_scalars_witness :
    (filter_metadata_for_chromadb
        [("topics", .mList [.mStr "a", .mStr "b"]), ("extra", .mDict [("k", .mInt 1)])]).lookup
        "topics" =
      some (.mStr ⟨joinCL ",".data ([MVal.mStr "a", MVal.mStr "b"].map pyStrM)⟩) ∧
    (filter_metadata_for_chromadb
        [("topics", .mList [.mStr "a", .mStr "b"]), ("extra", .mDict [("k", .mInt 1)])]).lookup
        "extra" =
      some (.mStr ⟨jsonDumpsM [("k", .mInt 1)]⟩) :=
  ⟨(C4_metadata_filter_scalars _).2.2.1 "topics" _ rfl,
   (C4_metadata_filter_scalars _).2.2.2.1 "extra" _ rfl⟩

/-! ### Claim C5 -/

theorem load_pdf_shape (p : String) (pages : List String)
    (split : String → List String) :
    ∀ c ∈ load_pdf p pages split,
      ∃ i t ci, i < pages.length ∧
        c.metadata = filter_metadata_for_chromadb
          (filter_metadata_for_chromadb (cleanMetadata (basename p) i t) ++
            [("chunk_index", .mInt ci),
             ("chunk_size", .mInt c.page_content.data.length)]) := by
  intro c hc
  simp only [load_pdf, List.mem_map] at hc
  obtain ⟨ci2, hci2, rfl⟩ := hc
  rw [List.enum_eq_zip_range] at hci2
  obtain ⟨ci1, cd⟩ := ci2
  obtain ⟨-, hcd⟩ := List.of_mem_zip hci2
  simp only [List.mem_flatMap, List.mem_map] at hcd
  obtain ⟨d, hd, t, ht, rfl⟩ := hcd
  obtain ⟨pi, hpi, rfl⟩ := hd
  rw [List.enum_eq_zip_range] at hpi
  obtain ⟨i, pg⟩ := pi
  obtain ⟨hir, -⟩ := List.of_mem_zip hpi
  exact ⟨i, pg, ci1, List.mem_range.mp hir, rfl⟩

/-- Claim C5 (amended): every chunk's chunk_id is the first 8 hex characters
of the md5 of source_file ++ "_" ++ the 0-based page index — one less than
the 1-based page_number metadata, not the page_number itself — so equal
(source_file, page_number) still implies equal chunk_id, stable across
re-ingestion runs. -/
theorem C5_chunk_id_zero_based_amended :
    (∀ (p : String) (pages : List String) (split : String → List String),
      ∀ c ∈ load_pdf p pages split,
        ∃ i, i < pages.length ∧
          c.metadata.lookup "source_file" = some (.mStr (basename p)) ∧
          c.metadata.lookup "page_number" = some (.mInt ((i : Int) + 1)) ∧
          c.metadata.lookup "chunk_id" =
            some (.mStr (_generate_chunk_id (basename p) i))) ∧
    (∀ (p1 p2 : String) (pg1 pg2 : List String)
      (sp1 sp2 : String → List String) (c1 c2 : PDoc),
      c1 ∈ load_pdf p1 pg1 sp1 → c2 ∈ load_pdf p2 pg2 sp2 →
      c1.metadata.lookup "source_file" = c2.metadata.lookup "source_file" →
      c1.metadata.lookup "page_number" = c2.metadata.lookup "page_number" →
      c1.metadata.lookup "chunk_id" = c2.metadata.lookup "chunk_id") := by
  have key : ∀ (p : String) (pages : List String) (split : String → List String),
      ∀ c ∈ load_pdf p pages split,
        ∃ i, i < pages.length ∧
          c.metadata.lookup "source_file" = some (.mStr (basename p)) ∧
          c.metadata.lookup "page_number" = some (.mInt ((i : Int) + 1)) ∧
          c.metadata.lookup "chunk_id" =
            some (.mStr (_generate_chunk_id (basename p) i)) := by
    intro p pages split c hc
    obtain ⟨i, t, ci, hi, hm⟩ := load_pdf_shape p pages split c hc
    refine ⟨i, hi, ?_, ?_, ?_⟩ <;> rw [hm] <;> rfl
  constructor
  · exact key
  · intro p1 p2 pg1 pg2 sp1 sp2 c1 c2 h1 h2 hsf hpn
    obtain ⟨i1, -, hs1, hp1, hc1⟩ := key p1 pg1 sp1 c1 h1
    obtain ⟨i2, -, hs2, hp2, hc2⟩ := key p2 pg2 sp2 c2 h2
    rw [hs1, hs2] at hsf
    rw [hp1, hp2] at hpn
    simp only [Option.some.injEq, MVal.mStr.injEq] at hsf
    simp only [Option.some.injEq, MVal.mInt.injEq] at hpn
    have hi : i1 = i2 := by omega
    rw [hc1, hc2, hsf, hi]

/-- the single chunk produced by load_pdf on a one-page document x.pdf. -/
def c5Chunk : PDoc :=
  ⟨"hello",
   [("source_file", .mStr "x.pdf"), ("document_type", .mStr "general"),
    ("category", .mStr "unknown"), ("topics", .mStr "general"),
    ("page_number", .mInt 1), ("chunk_id", .mStr "55ab00d0"),
    ("doc_size", .mInt 5), ("chunk_index", .mInt 0), ("chunk_size", .mInt 5)]⟩

theorem c5Chunk_load : load_pdf "x.pdf" ["hello"] (fun t => [t]) = [c5Chunk] := by
  rfl

/-- witness for C5 (amended) at one page: the chunk id is the hash of the
0-based index 0 while the page_number is 1. -/
theorem C5_chunk_id_zero_based_amended_witness :
    ∃ i, i < (["hello"] : List String).length ∧
      c5Chunk.metadata.lookup "source_file" = some (.mStr (basename "x.pdf")) ∧
      c5Chunk.metadata.lookup "page_number" = some (.mInt ((i : Int) + 1)) ∧
      c5Chunk.metadata.lookup "chunk_id" =
        some (.mStr (_generate_chunk_id (basename "x.pdf") i)) :=
  C5_chunk_id_zero_based_amended.1 "x.pdf" ["hello"] (fun t => [t]) c5Chunk
    (by rw [c5Chunk_load]; exact List.mem_singleton.mpr rfl)

/-- counterexample to C5 as stated: for the single-page document x.pdf the
chunk has page_number 1 but its chunk_id hashes "x.pdf_0", not "x.pdf_1"
(and the two 8-character hash prefixes differ). -/
theorem C5_counterexample :
    ¬ (∀ c ∈ load_pdf "x.pdf" ["hello"] (fun t => [t]),
        ∀ pn : Int, c.metadata.lookup "page_number" = some (.mInt pn) →
          c.metadata.lookup "chunk_id" =
            some (.mStr ⟨(md5Hex ("x.pdf" ++ "_" ++ natRepr pn.toNat)).data.take 8⟩)) := by
  intro h
  have hmem : c5Chunk ∈ load_pdf "x.pdf" ["hello"] (fun t => [t]) := by
    rw [c5Chunk_load]; exact List.mem_singleton.mpr rfl
  have h1 := h c5Chunk hmem 1 (by rfl)
  have h2 : c5Chunk.metadata.lookup "chunk_id" = some (.mStr "55ab00d0") := by rfl
  rw [h1] at h2
  simp only [Option.some.injEq, MVal.mStr.injEq] at h2
  exact absurd h2 (by decide)

/-! ### Claim C1 -/

theorem prefixCL_self_cons (c : Char) (t : List Char) :
    prefixCL [c] (c :: t) = true := by
  simp [prefixCL]

theorem containsCL_singleton_of_mem (c : Char) :
    ∀ l : List Char, c ∈ l → containsCL [c] l = true := by
  intro l hl
  induction l with
  | nil => simp at hl
  | cons x t ih =>
      simp only [containsCL, Bool.or_eq_true]
      rcases List.mem_cons.mp hl with rfl | h
      · exact Or.inl (prefixCL_self_cons c t)
      · exact Or.inr (ih h)

/-- Claim C1: any question containing a governor/limit/usage keyword
(case-insensitively) together with a balanced brace pair — an opening brace
occurring before a closing brace — is classified LimitsCalc by the intent
router, which checks this rule before the CodeReview and QueryOptimize
rules, so it wins regardless of code signals in the question. -/
theorem C1_limits_routing_priority (q : String)
    (hkw : ∃ kw ∈ limitsKeywords, pyIn kw (lowerStr q) = true)
    (hbr : ∃ a b c : List Char, q.data = a ++ '\x7b' :: (b ++ '\x7d' :: c)) :
    classify_intent q = .LimitsCalc := by
  have hl : limitsCond q = true := by
    unfold limitsCond
    obtain ⟨kw, hkwm, hkwin⟩ := hkw
    obtain ⟨a, b, c, hq⟩ := hbr
    have hopen : pyIn "\x7b" q = true := by
      unfold pyIn
      apply containsCL_singleton_of_mem
      rw [hq]; simp
    have hclose : pyIn "\x7d" q = true := by
      unfold pyIn
      apply containsCL_singleton_of_mem
      rw [hq]; simp
    rw [hopen, hclose]
    simp only [Bool.and_true]
    exact List.any_eq_true.mpr ⟨kw, hkwm, hkwin⟩
  unfold classify_intent
  rw [hl]
  rfl

/-- witness for C1 on the spec's example input, which contains an embedded
JSON payload. -/
theorem C1_limits_routing_priority_witness :
    classify_intent
      "Calculate governor limits: \x7b\"soql_queries\": 85, \"dml_statements\": 140\x7d" =
      .LimitsCalc :=
  C1_limits_routing_priority _
    ⟨"calculate", by decide, by decide⟩
    ⟨"Calculate governor limits: ".data,
     "\"soql_queries\": 85, \"dml_statements\": 140".data, [], by decide⟩

/-! ### Claim C7 -/

/-- Claim C7 (evaluation at the failing input): the scanner flags the DML
statement inside the open for loop at line 2, but it also flags the SOQL
query at line 4 although the loop's closing brace is on line 3 — the pop
filter keeps exactly the stack entries whose recorded brace level exceeds
the current level, i.e. the already-closed loops, so a closed loop is
never removed from the stack. -/
theorem C7_loop_scan_flags_after_close :
    apexScanIssues
      ["for (Account a : accounts) \x7b",
       "    insert a;",
       "\x7d",
       "Account acc = [SELECT Id FROM Account LIMIT 1];"] =
      ["Line 2: DML operation in for loop (started at line 1) - Governor limit violation!",
       "Line 4: SOQL query in for loop (started at line 1) - Governor limit violation!"] := by
  decide

/-! ### Claim C8 -/

def c8input : String :=
  "\x7b\"soql_queries\": 85, \"dml_statements\": 140, \"heap_size_mb\": 5\x7d"

def c8Criticals : List String :=
  ["soql_queries: 85/100 (85.0%)",
   "dml_statements: 140/150 (93.3%)",
   "heap_size_mb: 5/6 (83.3%)"]

/-- the full report for the C8 input, as assembled by the calculator. -/
def c8Report : String :=
  limitsHeader ++
  statusRed ++ " **Soql Queries:** 85/100 (85.0%)\n" ++
  statusRed ++ " **Dml Statements:** 140/150 (93.3%)\n" ++
  statusRed ++ " **Heap Size Mb:** 5/6 (83.3%)\n" ++
  "\n" ++
  criticalHeader ++ bulletLines c8Criticals ++ "\n" ++
  recsHeader ++
  bulletStr ++ " High SOQL usage - Consider query optimization and caching\n" ++
  bulletStr ++ " High DML usage - Implement bulk operations and reduce individual DML calls\n" ++
  bulletStr ++ " High heap usage - Optimize data structures and consider processing in batches\n" ++
  bulletStr ++ " Always test with large data volumes\n" ++
  bulletStr ++ " Implement proper error handling for limit exceptions\n" ++
  bulletStr ++ " Consider asynchronous processing for large operations\n" ++
  referenceHeader ++
  bulletStr ++ " SOQL Queries: 100 (sync) / 200 (async)\n" ++
  bulletStr ++ " DML Statements: 150 (sync) / 150 (async)\n" ++
  bulletStr ++ " DML Records: 10,000 per transaction\n" ++
  bulletStr ++ " Heap Size: 6 MB (sync) / 12 MB (async)\n" ++
  bulletStr ++ " CPU Time: 10s (sync) / 60s (async)\n"

/-- Claim C8: on the given payload all three operations exceed 80% of their
fixed ceilings (85/100, 140/150, 5/6), each is bucketed critical, and the
report's critical-issues section lists exactly the three corresponding
per-operation lines (the report equals the explicitly structured c8Report,
whose critical section is bulletLines over exactly those three lines). -/
theorem C8_limits_all_three_critical :
    governor_limits_calculator c8input = .ok c8Report ∧
    (match limitsParsePhase c8input with
     | .parsed (.jObj ops) =>
         (limitsLoop ops (limitsHeader, [], [])).map
           (fun t : String × List String × List String => t.2.2)
     | _ => .error (.valueError "")) = .ok c8Criticals ∧
    (((Frac.ofNat 85).div (Frac.ofNat 100)).mul (Frac.ofNat 100)).gtb
      (Frac.ofNat 80) = true ∧
    (((Frac.ofNat 140).div (Frac.ofNat 150)).mul (Frac.ofNat 100)).gtb
      (Frac.ofNat 80) = true ∧
    (((Frac.ofNat 5).div (Frac.ofNat 6)).mul (Frac.ofNat 100)).gtb
      (Frac.ofNat 80) = true := by
  refine ⟨by rfl, by rfl, by decide, by decide, by decide⟩

/-! ### Claim C9 -/

/-- counterexample to C9 as stated: a failing store deletion inside
remove_documents_by_source is swallowed — the call reports success. -/
theorem C9_counterexample :
    remove_documents_by_source
      (fun _ => .error (.valueError "embedding service down"))
      (fun _ => .ok ()) "docs/a.pdf" = .ok () := by
  rfl

/-- Claim C9 (amended): exceptions raised by the store add inside
add_documents_to_vectorstore propagate to the caller (its except branch
re-raises), but remove_documents_by_source catches every exception from
the deletion and completes normally — its except branch deliberately does
not re-raise. -/
theorem C9_add_propagates_remove_swallows
    (vsAdd : List PDoc → Except PyExc Unit) (vsCount : Unit → Except PyExc Nat)
    (updMeta : String → Except PyExc Unit) (documents : List PDoc)
    (pdf_path : String) (update_metadata : Bool) (e : PyExc)
    (vsDelete : String → Except PyExc Unit) (p : String) :
    (vsAdd documents = .error e → documents ≠ [] →
      add_documents_to_vectorstore vsAdd vsCount updMeta documents pdf_path
        update_metadata = .error e) ∧
    remove_documents_by_source vsDelete updMeta p = .ok () := by
  constructor
  · intro he hne
    unfold add_documents_to_vectorstore
    have hne2 : documents.isEmpty = false := by
      cases documents with
      | nil => exact absurd rfl hne
      | cons a t => rfl
    simp only [hne2, Bool.not_false, if_true]
    rw [he]
    rfl
  · simp only [remove_documents_by_source]
    cases hd : vsDelete (basename p) with
    | ok u => rfl
    | error e2 => rfl

/-- witness for C9 (amended): a failing add propagates the error; a remove
with a failing delete still returns success. -/
theorem C9_add_propagates_remove_swallows_witness :
    (add_documents_to_vectorstore (fun _ => .error (.valueError "down"))
      (fun _ => .ok 0) (fun _ => .ok ()) [⟨"t", []⟩] "docs/a.pdf" true =
      .error (.valueError "down")) ∧
    remove_documents_by_source (fun _ => .error (.valueError "down"))
      (fun _ => .ok ()) "docs/a.pdf" = .ok () :=
  ⟨(C9_add_propagates_remove_swallows (fun _ => .error (.valueError "down"))
      (fun _ => .ok 0) (fun _ => .ok ()) [⟨"t", []⟩] "docs/a.pdf" true
      (.valueError "down") (fun _ => .error (.valueError "down")) "docs/a.pdf").1
      rfl (by simp),
   (C9_add_propagates_remove_swallows (fun _ => .error (.valueError "down"))
      (fun _ => .ok 0) (fun _ => .ok ()) [⟨"t", []⟩] "docs/a.pdf" true
      (.valueError "down") (fun _ => .error (.valueError "down")) "docs/a.pdf").2⟩

/-! ### Claim C10 -/

theorem lookup_mem_str {β : Type} :
    ∀ (l : List (String × β)) (k : String) (v : β),
      l.lookup k = some v → (k, v) ∈ l := by
  intro l
  induction l with
  | nil => intro k v h; simp [List.lookup] at h
  | cons p t ih =>
      intro k v h
      obtain ⟨a, b⟩ := p
      simp only [List.lookup] at h
      cases hk : k == a
      · rw [hk] at h
        exact List.mem_cons_of_mem _ (ih k v h)
      · rw [hk] at h
        simp only [Option.some.injEq] at h
        have : k = a := eq_of_beq hk
        rw [this, ← h]
        exact List.mem_cons_self _ _

theorem limitsLoop_error_source :
    ∀ (ops : List (String × JValue)) (acc : String × List String × List String)
      (e : PyExc), limitsLoop ops acc = .error e →
      ∃ k v, (k, v) ∈ ops ∧ (sync_limits.lookup k).isSome ∧ toNumQ v = none := by
  intro ops
  induction ops with
  | nil => intro acc e h; simp [limitsLoop] at h
  | cons kv t ih =>
      intro acc e h
      obtain ⟨k0, v0⟩ := kv
      obtain ⟨rep, warns, crits⟩ := acc
      simp only [limitsLoop] at h
      cases hl : List.lookup k0 sync_limits with
      | none =>
          rw [hl] at h
          obtain ⟨k, v, hm, hs, hn⟩ := ih _ e h
          exact ⟨k, v, List.mem_cons_of_mem _ hm, hs, hn⟩
      | some limit =>
          rw [hl] at h
          cases hv : toNumQ v0 with
          | none =>
              exact ⟨k0, v0, List.mem_cons_self _ _, by rw [hl]; rfl, hv⟩
          | some q =>
              rw [hv] at h
              obtain ⟨k, v, hm, hs, hn⟩ := ih _ e h
              exact ⟨k, v, List.mem_cons_of_mem _ hm, hs, hn⟩

theorem limitsLoop_ok_numeric :
    ∀ (ops : List (String × JValue)) (acc : String × List String × List String)
      (r : String × List String × List String), limitsLoop ops acc = .ok r →
      ∀ k v, (k, v) ∈ ops → (sync_limits.lookup k).isSome → toNumQ v ≠ none := by
  intro ops
  induction ops with
  | nil => intro acc r _ k v hm; simp at hm
  | cons kv t ih =>
      intro acc r h k v hm hs
      obtain ⟨k0, v0⟩ := kv
      obtain ⟨rep, warns, crits⟩ := acc
      simp only [limitsLoop] at h
      rcases List.mem_cons.mp hm with heq | hmt
      · obtain ⟨rfl, rfl⟩ := Prod.mk.injEq .. ▸ And.intro (congrArg Prod.fst heq) (congrArg Prod.snd heq)
        cases hl : List.lookup k sync_limits with
        | none => rw [hl] at hs; simp at hs
        | some limit =>
            rw [hl] at h
            cases hv : toNumQ v with
            | none => rw [hv] at h; simp at h
            | some q => simp [hv]
      · cases hl : List.lookup k0 sync_limits with
        | none =>
            rw [hl] at h
            exact ih _ r h k v hmt hs
        | some limit =>
            rw [hl] at h
            cases hv : toNumQ v0 with
            | none => rw [hv] at h; simp at h
            | some q =>
                rw [hv] at h
                exact ih _ r h k v hmt hs

theorem limitsLoop_all_numeric_ok :
    ∀ (ops : List (String × JValue)) (acc : String × List String × List String),
      (∀ k v, (k, v) ∈ ops → toNumQ v ≠ none) →
      ∃ r, limitsLoop ops acc = .ok r := by
  intro ops
  induction ops with
  | nil => intro acc _; exact ⟨acc, rfl⟩
  | cons kv t ih =>
      intro acc hnum
      obtain ⟨k0, v0⟩ := kv
      obtain ⟨rep, warns, crits⟩ := acc
      simp only [limitsLoop]
      cases hl : List.lookup k0 sync_limits with
      | none =>
          exact ih _ (fun k v hm => hnum k v (List.mem_cons_of_mem _ hm))
      | some limit =>
          cases hv : toNumQ v0 with
          | none =>
              exact absurd hv (hnum k0 v0 (List.mem_cons_self _ _))
          | some q =>
              exact ih _ (fun k v hm => hnum k v (List.mem_cons_of_mem _ hm))

theorem freeTextOps_numeric (s : String) :
    ∀ k v, (k, v) ∈ freeTextOps s → toNumQ v ≠ none := by
  intro k v hm
  unfold freeTextOps at hm
  rcases List.mem_append.mp hm with h | h <;>
    [skip; skip] <;>
    · split at h
      · split at h
        · simp only [List.mem_singleton, Prod.mk.injEq] at h
          rw [h.2]
          simp [toNumQ]
        · simp at h
      · simp at h

theorem limitsRecsPhase_ok (opsData : List (String × JValue)) (report : String)
    (h : ∀ k v, (k, v) ∈ opsData → (sync_limits.lookup k).isSome → toNumQ v ≠ none) :
    ∃ rep, limitsRecsPhase opsData report = .ok rep := by
  have step : ∀ (kk : String) (nn : Nat), (sync_limits.lookup kk).isSome →
      ∃ b, recLookupGt opsData kk nn = .ok b := by
    intro kk nn hks
    unfold recLookupGt
    cases hlk : List.lookup kk opsData with
    | none => exact ⟨false, rfl⟩
    | some v =>
        have hnum := h kk v (lookup_mem_str _ _ _ hlk) hks
        cases hv : toNumQ v with
        | none => exact absurd hv hnum
        | some q => exact ⟨q.gtb (Frac.ofNat nn), by simp [pyGtNum, hv]⟩
  obtain ⟨b1, hb1⟩ := step "soql_queries" 50 (by rfl)
  obtain ⟨b2, hb2⟩ := step "dml_statements" 100 (by rfl)
  obtain ⟨b3, hb3⟩ := step "heap_size_mb" 4 (by rfl)
  unfold limitsRecsPhase
  rw [hb1, hb2, hb3]
  exact ⟨_, rfl⟩

theorem parseJObj_shape :
    ∀ (fuel : Nat) (acc : List (String × JValue)) (first : Bool) (l : List Char)
      (v : JValue) (r : List Char),
      parseJObj fuel acc first l = .ok (v, r) → ∃ o, v = .jObj o := by
  intro fuel
  induction fuel with
  | zero => intro acc first l v r h; simp [parseJObj] at h
  | succ f ih =>
      intro acc first l v r h
      simp only [parseJObj] at h
      cases hsk : skipJWs l with
      | nil => simp only [hsk] at h; exact Except.noConfusion h
      | cons c rest =>
          simp only [hsk] at h
          by_cases h1 : (decide (c = '\x7d') && first) = true
          · rw [if_pos h1] at h
            simp only [Except.ok.injEq, Prod.mk.injEq] at h
            exact ⟨acc, h.1.symm⟩
          · rw [if_neg h1] at h
            by_cases h2 : c = '"'
            · rw [if_pos h2] at h
              cases hps : parseJStrAux (rest.length + 1) [] rest with
              | error e1 => simp only [hps] at h; exact Except.noConfusion h
              | ok pr =>
                  obtain ⟨k, r1⟩ := pr
                  simp only [hps] at h
                  cases hsk2 : skipJWs r1 with
                  | nil => simp only [hsk2] at h; exact Except.noConfusion h
                  | cons c2 r2 =>
                      simp only [hsk2] at h
                      by_cases h3 : c2 = ':'
                      · rw [if_pos h3] at h
                        cases hpv : parseJVal f r2 with
                        | error e2 => simp only [hpv] at h; exact Except.noConfusion h
                        | ok pr2 =>
                            obtain ⟨v2, r3⟩ := pr2
                            simp only [hpv] at h
                            cases hsk3 : skipJWs r3 with
                            | nil => simp only [hsk3] at h; exact Except.noConfusion h
                            | cons c3 r4 =>
                                simp only [hsk3] at h
                                by_cases h4 : c3 = ','
                                · rw [if_pos h4] at h
                                  exact ih _ _ _ _ _ h
                                · rw [if_neg h4] at h
                                  by_cases h5 : c3 = '\x7d'
                                  · rw [if_pos h5] at h
                                    simp only [Except.ok.injEq,
                                      Prod.mk.injEq] at h
                                    exact ⟨_, h.1.symm⟩
                                  · rw [if_neg h5] at h
                                    simp at h
                      · rw [if_neg h3] at h
                        simp at h
            · rw [if_neg h2] at h
              simp at h

theorem brace_head (s : String) (hs : pyStartsWith s "\x7b" = true) :
    ∃ rest, s.data = '\x7b' :: rest := by
  cases hsd : s.data with
  | nil =>
      rw [pyStartsWith, startsWithCL, hsd] at hs
      simp [prefixCL] at hs
  | cons c cs =>
      rw [pyStartsWith, startsWithCL, hsd] at hs
      have : ('\x7b' : Char) = c := by
        by_contra hne
        rw [show ("\x7b".data : List Char) = ['\x7b'] from rfl] at hs
        simp [prefixCL, hne] at hs
      exact ⟨cs, by rw [← this]⟩

theorem json_loads_obj_of_brace (s : String)
    (hs : pyStartsWith s "\x7b" = true) (v : JValue)
    (hjl : json_loads s = .ok v) : ∃ o, v = .jObj o := by
  obtain ⟨rest, hdata⟩ := brace_head s hs
  unfold json_loads at hjl
  cases hpv : parseJVal (s.data.length + 1) s.data with
  | error e => simp only [hpv] at hjl; exact Except.noConfusion hjl
  | ok pr =>
      obtain ⟨v0, r0⟩ := pr
      simp only [hpv] at hjl
      split at hjl
      · simp only [Except.ok.injEq] at hjl
        subst hjl
        rw [hdata] at hpv
        simp only [List.length_cons, parseJVal] at hpv
        rw [show skipJWs ('\x7b' :: rest) = '\x7b' :: rest from rfl] at hpv
        simp only [if_pos rfl] at hpv
        exact parseJObj_shape _ _ _ _ _ _ hpv
      · exact Except.noConfusion hjl

theorem strip_ne_nil_of_brace (s : String)
    (hs : pyStartsWith s "\x7b" = true) : (pyStrip s).data ≠ [] := by
  obtain ⟨rest, hdata⟩ := brace_head s hs
  unfold pyStrip stripCL
  rw [hdata]
  rw [show List.dropWhile isPyWs ('\x7b' :: rest) = '\x7b' :: rest from rfl]
  intro hcontra
  have h0 : List.dropWhile isPyWs ('\x7b' :: rest).reverse = [] := by
    have := congrArg List.reverse hcontra
    simpa using this
  have hall := List.dropWhile_eq_nil_iff.mp h0
  have : isPyWs '\x7b' = true := hall '\x7b' (by simp)
  simp [isPyWs] at this

/-- counterexample to C10 as stated: a syntactically valid JSON object that
maps a recognised operation to a string makes the calculator raise an
uncaught TypeError at the division — the try block only covers parsing. -/
theorem C10_counterexample :
    governor_limits_calculator "\x7b\"soql_queries\": \"abc\"\x7d" =
      .error typeErrorDiv := by
  rfl

/-- Claim C10 (amended): the calculator raises only when the payload parses
as a JSON object assigning a non-numeric value to a recognised operation
key; otherwise it returns a string — unusable free text yields the
format-help message and a brace-initial payload that fails JSON parsing
yields the invalid-JSON message. -/
theorem C10_malformed_payload_amended (s : String) :
    (∀ e, governor_limits_calculator s = .error e →
      pyStartsWith s "\x7b" = true ∧
      ∃ ops, json_loads s = .ok (.jObj ops) ∧
        ∃ k v, (k, v) ∈ ops ∧ (sync_limits.lookup k).isSome ∧ toNumQ v = none) ∧
    ((pyStrip s).data ≠ [] → limitsParsePhase s = .helpNeeded →
      governor_limits_calculator s = .ok formatHelpMsg) ∧
    (pyStartsWith s "\x7b" = true → (∃ e0, json_loads s = .error e0) →
      governor_limits_calculator s = .ok invalidJsonMsg) := by
  refine ⟨?_, ?_, ?_⟩
  · intro e he
    unfold governor_limits_calculator at he
    by_cases hstrip : (pyStrip s).data = []
    · rw [if_pos hstrip] at he; exact Except.noConfusion he
    · rw [if_neg hstrip] at he
      cases hpp : limitsParsePhase s with
      | helpNeeded => simp only [hpp] at he; exact Except.noConfusion he
      | invalidJson => simp only [hpp] at he; exact Except.noConfusion he
      | parsed v =>
          simp only [hpp] at he
          unfold limitsParsePhase at hpp
          by_cases hsw : pyStartsWith s "\x7b" = true
          · rw [if_pos hsw] at hpp
            cases hj : json_loads s with
            | error e1 =>
                simp only [hj] at hpp
                exact LimitsParse.noConfusion hpp
            | ok v1 =>
                simp only [hj] at hpp
                have hv1 : v1 = v := by injection hpp
                subst hv1
                obtain ⟨ops, hops⟩ := json_loads_obj_of_brace s hsw v1 (by rw [hj])
                subst hops
                refine ⟨hsw, ops, rfl, ?_⟩
                have he2 : (do
                    let tr ← limitsLoop ops (limitsHeader, [], [])
                    let report := tr.1 ++ "\n"
                    let report := if tr.2.2 ≠ [] then
                        report ++ criticalHeader ++ bulletLines tr.2.2 ++ "\n"
                      else report
                    let report := if tr.2.1 ≠ [] then
                        report ++ warningsHeader ++ bulletLines tr.2.1 ++ "\n"
                      else report
                    limitsRecsPhase ops (report ++ recsHeader) :
                      Except PyExc String) = .error e := he
                cases hll : limitsLoop ops (limitsHeader, [], []) with
                | error e2 =>
                    obtain ⟨k, w, hm, hks, hn⟩ :=
                      limitsLoop_error_source ops _ e2 hll
                    exact ⟨k, w, hm, hks, hn⟩
                | ok trip =>
                    have hnum := limitsLoop_ok_numeric ops _ _ hll
                    have hne : ∀ (rep : String) (e2 : PyExc),
                        limitsRecsPhase ops rep ≠ .error e2 := by
                      intro rep e2 hcontra
                      obtain ⟨r2, hr2⟩ := limitsRecsPhase_ok ops rep hnum
                      rw [hr2] at hcontra
                      exact Except.noConfusion hcontra
                    simp only [hll, Except.bind] at he2
                    exact absurd he2 (hne _ e)
          · rw [if_neg hsw] at hpp
            have hpp2 : (if (freeTextOps s).isEmpty = true then LimitsParse.helpNeeded
                else LimitsParse.parsed (.jObj (freeTextOps s))) =
                LimitsParse.parsed v := hpp
            by_cases hempty : (freeTextOps s).isEmpty = true
            · rw [if_pos hempty] at hpp2
              exact LimitsParse.noConfusion hpp2
            · rw [if_neg hempty] at hpp2
              have hv : JValue.jObj (freeTextOps s) = v := by injection hpp2
              subst hv
              have hnum : ∀ k w, (k, w) ∈ freeTextOps s → toNumQ w ≠ none :=
                freeTextOps_numeric s
              have he2 : (do
                  let tr ← limitsLoop (freeTextOps s) (limitsHeader, [], [])
                  let report := tr.1 ++ "\n"
                  let report := if tr.2.2 ≠ [] then
                      report ++ criticalHeader ++ bulletLines tr.2.2 ++ "\n"
                    else report
                  let report := if tr.2.1 ≠ [] then
                      report ++ warningsHeader ++ bulletLines tr.2.1 ++ "\n"
                    else report
                  limitsRecsPhase (freeTextOps s) (report ++ recsHeader) :
                    Except PyExc String) = .error e := he
              cases hll : limitsLoop (freeTextOps s) (limitsHeader, [], []) with
              | error e2 =>
                  obtain ⟨r2, hr2⟩ :=
                    limitsLoop_all_numeric_ok (freeTextOps s)
                      (limitsHeader, [], []) hnum
                  rw [hr2] at hll
                  exact Except.noConfusion hll
              | ok trip =>
                  have hnum2 := limitsLoop_ok_numeric (freeTextOps s) _ _ hll
                  have hne : ∀ (rep : String) (e2 : PyExc),
                      limitsRecsPhase (freeTextOps s) rep ≠ .error e2 := by
                    intro rep e2 hcontra
                    obtain ⟨r2, hr2⟩ :=
                      limitsRecsPhase_ok (freeTextOps s) rep hnum2
                    rw [hr2] at hcontra
                    exact Except.noConfusion hcontra
                  simp only [hll, Except.bind] at he2
                  exact absurd he2 (hne _ e)
  · intro hstrip hpp
    unfold governor_limits_calculator
    rw [if_neg hstrip]
    simp only [hpp]
  · intro hsw hex
    obtain ⟨e0, hj⟩ := hex
    have hpp : limitsParsePhase s = .invalidJson := by
      unfold limitsParsePhase
      rw [if_pos hsw]
      simp only [hj]
    unfold governor_limits_calculator
    rw [if_neg (strip_ne_nil_of_brace s hsw)]
    simp only [hpp]

/-- witness for C10 (amended): free text without counts yields the help
message and a malformed brace-initial payload yields the invalid-JSON
message. -/
theorem C10_malformed_payload_amended_witness :
    governor_limits_calculator "hello" = .ok formatHelpMsg ∧
    governor_limits_calculator "\x7bbad" = .ok invalidJsonMsg :=
  ⟨(C10_malformed_payload_amended "hello").2.1 (by decide) (by rfl),
   (C10_malformed_payload_amended "\x7bbad").2.2 (by rfl) ⟨_, by rfl⟩⟩

/-! ### Claim C2 -/

theorem ragPath_keys (retrieve : String → Except PyExc (List PDoc))
    (llm : String → Except PyExc String) (q : String) (d : List (String × PyVal))
    (h : ragPath retrieve llm q = .ok d) :
    d.map Prod.fst = ["answer", "sources", "source_metadata"] := by
  unfold ragPath at h
  cases hr : retrieve q with
  | error e => simp only [hr, Except.bind] at h; exact Except.noConfusion h
  | ok docs =>
      simp only [hr, Except.bind] at h
      cases docs with
      | nil =>
          have h3 : (pure [("answer", PyVal.vStr noDocsAnswer),
              ("sources", PyVal.vDocs []), ("source_metadata", PyVal.vMetas [])] :
              Except PyExc (List (String × PyVal))) = .ok d := h
          injection h3 with h4
          rw [← h4]
          rfl
      | cons dd t =>
          have h3 : (pure [("answer", PyVal.vStr
                (match llm (ragPrompt (ragContext (dd :: t)) q) with
                 | .ok r => r
                 | .error _ => apologyAnswer)),
              ("sources", PyVal.vDocs (dd :: t)),
              ("source_metadata", PyVal.vMetas
                ((dd :: t).map (fun x => x.metadata)))] :
              Except PyExc (List (String × PyVal))) = .ok d := h
          injection h3 with h4
          rw [← h4]
          rfl

theorem toolPathResult_keys (fr tu : String) (docs : List PDoc) :
    (toolPathResult fr tu docs).map Prod.fst =
      ["answer", "sources", "source_metadata", "tool_used"] := rfl

theorem toolPathResult_tool_used (fr tu : String) (docs : List PDoc) :
    (toolPathResult fr tu docs).lookup "tool_used" = some (.vStr tu) := rfl

def c2Validate : String → Bool × String × String := fun s2 => (true, "", s2)

/-- counterexample to C2 as stated: for a plain question with no retrieval
hits, the returned dictionary has only the three keys answer, sources and
source_metadata — the tool_used key is absent rather than null. -/
theorem C2_counterexample :
    (query c2Validate (fun _ => .ok []) (fun _ => .ok "x") id id id
        "hello").map (fun d => d.map Prod.fst) =
      .ok ["answer", "sources", "source_metadata"] ∧
    ¬ ("tool_used" ∈ (["answer", "sources", "source_metadata"] : List String)) := by
  exact ⟨rfl, by decide⟩

/-- Claim C2 (amended): for every validated question, a successful query
result is one of exactly two shapes — the tool path returns the four keys
answer, sources, source_metadata, tool_used with tool_used bound to one of
the three tool labels, while both GeneralRAG paths (zero hits and normal)
return only the three keys answer, sources, source_metadata, omitting
tool_used entirely instead of setting it to null. -/
theorem C2_result_keys_amended
    (validate : String → Bool × String × String)
    (retrieve : String → Except PyExc (List PDoc))
    (llm : String → Except PyExc String) (unesc : String → String)
    (apexTool soqlTool : String → String) (question m c : String)
    (hv : validate question = (true, m, c))
    (d : List (String × PyVal))
    (hd : query validate retrieve llm unesc apexTool soqlTool question = .ok d) :
    (d.map Prod.fst = ["answer", "sources", "source_metadata", "tool_used"] ∧
      ∃ tu, d.lookup "tool_used" = some (.vStr tu) ∧
        (tu = limitsLabel ∨ tu = apexLabel ∨ tu = soqlLabel)) ∨
    d.map Prod.fst = ["answer", "sources", "source_metadata"] := by
  unfold query at hd
  rw [hv] at hd
  have hd2 : ((do
      let frtu : Option String × Option String ←
        if limitsCond c then do
          let operations := unesc (unesc (extractLimitsPayload c))
          let r ← governor_limits_calculator operations
          pure (some r, some limitsLabel)
        else if codeCond c then
          pure (some (apexTool (extractApexCode c)), some apexLabel)
        else if soqlCond c then
          pure (some (soqlTool (extractSoqlQuery c)), some soqlLabel)
        else pure (none, none)
      match frtu with
      | (some fr, some tu) =>
          if !fr.data.isEmpty && !tu.data.isEmpty then do
            let docs ← retrieve c
            pure (toolPathResult fr tu docs)
          else ragPath retrieve llm c
      | _ => ragPath retrieve llm c) :
        Except PyExc (List (String × PyVal))) = .ok d := hd
  clear hd
  by_cases h1 : limitsCond c = true
  · rw [if_pos h1] at hd2
    cases hc : governor_limits_calculator (unesc (unesc (extractLimitsPayload c))) with
    | error e => simp only [hc, Except.bind] at hd2; exact Except.noConfusion hd2
    | ok r =>
        simp only [hc, Except.bind] at hd2
        have hd3 : (if (!r.data.isEmpty && !limitsLabel.data.isEmpty) = true then
            (do
              let docs ← retrieve c
              Except.ok (toolPathResult r limitsLabel docs) :
                Except PyExc (List (String × PyVal)))
          else ragPath retrieve llm c) = .ok d := hd2
        by_cases hfr : (!r.data.isEmpty && !limitsLabel.data.isEmpty) = true
        · rw [if_pos hfr] at hd3
          cases hret : retrieve c with
          | error e =>
              simp only [hret, Except.bind] at hd3
              exact Except.noConfusion hd3
          | ok docs =>
              simp only [hret, Except.bind] at hd3
              have hd4 : (Except.ok (toolPathResult r limitsLabel docs) :
                  Except PyExc (List (String × PyVal))) = .ok d := hd3
              injection hd4 with h5
              rw [← h5]
              exact Or.inl ⟨toolPathResult_keys r limitsLabel docs,
                limitsLabel, toolPathResult_tool_used r limitsLabel docs, Or.inl rfl⟩
        · rw [if_neg hfr] at hd3
          exact Or.inr (ragPath_keys retrieve llm c d hd3)
  · rw [if_neg h1] at hd2
    by_cases h2 : codeCond c = true
    · rw [if_pos h2] at hd2
      have hd3 : (if (!(apexTool (extractApexCode c)).data.isEmpty &&
            !apexLabel.data.isEmpty) = true then
          (do
            let docs ← retrieve c
            Except.ok (toolPathResult (apexTool (extractApexCode c)) apexLabel docs) :
              Except PyExc (List (String × PyVal)))
        else ragPath retrieve llm c) = .ok d := hd2
      by_cases hfr : (!(apexTool (extractApexCode c)).data.isEmpty &&
          !apexLabel.data.isEmpty) = true
      · rw [if_pos hfr] at hd3
        cases hret : retrieve c with
        | error e =>
            simp only [hret, Except.bind] at hd3
            exact Except.noConfusion hd3
        | ok docs =>
            simp only [hret, Except.bind] at hd3
            have hd4 : (Except.ok (toolPathResult (apexTool (extractApexCode c))
                apexLabel docs) : Except PyExc (List (String × PyVal))) = .ok d := hd3
            injection hd4 with h5
            rw [← h5]
            exact Or.inl ⟨toolPathResult_keys _ apexLabel docs,
              apexLabel, toolPathResult_tool_used _ apexLabel docs,
              Or.inr (Or.inl rfl)⟩
      · rw [if_neg hfr] at hd3
        exact Or.inr (ragPath_keys retrieve llm c d hd3)
    · rw [if_neg h2] at hd2
      by_cases h3 : soqlCond c = true
      · rw [if_pos h3] at hd2
        have hd3 : (if (!(soqlTool (extractSoqlQuery c)).data.isEmpty &&
              !soqlLabel.data.isEmpty) = true then
            (do
              let docs ← retrieve c
              Except.ok (toolPathResult (soqlTool (extractSoqlQuery c)) soqlLabel docs) :
                Except PyExc (List (String × PyVal)))
          else ragPath retrieve llm c) = .ok d := hd2
        by_cases hfr : (!(soqlTool (extractSoqlQuery c)).data.isEmpty &&
            !soqlLabel.data.isEmpty) = true
        · rw [if_pos hfr] at hd3
          cases hret : retrieve c with
          | error e =>
              simp only [hret, Except.bind] at hd3
              exact Except.noConfusion hd3
          | ok docs =>
              simp only [hret, Except.bind] at hd3
              have hd4 : (Except.ok (toolPathResult (soqlTool (extractSoqlQuery c))
                  soqlLabel docs) : Except PyExc (List (String × PyVal))) = .ok d := hd3
              injection hd4 with h5
              rw [← h5]
              exact Or.inl ⟨toolPathResult_keys _ soqlLabel docs,
                soqlLabel, toolPathResult_tool_used _ soqlLabel docs,
                Or.inr (Or.inr rfl)⟩
        · rw [if_neg hfr] at hd3
          exact Or.inr (ragPath_keys retrieve llm c d hd3)
      · rw [if_neg h3] at hd2
        have hd3 : ragPath retrieve llm c = .ok d := hd2
        exact Or.inr (ragPath_keys retrieve llm c d hd3)

/-- witness for C2 (amended) at a concrete no-hit question: the result is
the three-key dictionary shape. -/
theorem C2_result_keys_amended_witness :
    ([("answer", PyVal.vStr noDocsAnswer), ("sources", PyVal.vDocs []),
        ("source_metadata", PyVal.vMetas [])].map Prod.fst =
      ["answer", "sources", "source_metadata", "tool_used"] ∧
      ∃ tu, ([("answer", PyVal.vStr noDocsAnswer), ("sources", PyVal.vDocs []),
        ("source_metadata", PyVal.vMetas [])].lookup "tool_used") =
          some (.vStr tu) ∧
        (tu = limitsLabel ∨ tu = apexLabel ∨ tu = soqlLabel)) ∨
    ([("answer", PyVal.vStr noDocsAnswer), ("sources", PyVal.vDocs []),
        ("source_metadata", PyVal.vMetas [])].map Prod.fst =
      ["answer", "sources", "source_metadata"]) :=
  C2_result_keys_amended c2Validate (fun _ => .ok []) (fun _ => .ok "x")
    id id id "hello" "" "hello" rfl
    [("answer", PyVal.vStr noDocsAnswer), ("sources", PyVal.vDocs []),
     ("source_metadata", PyVal.vMetas [])] rfl

/-! ### Claim C3 -/

/-- Claim C3: inside query, an exception from the generation call is caught
locally and replaced by the fixed apology answer — the call still returns a
normal result carrying the retrieved sources; whereas an exception from the
retrieval step propagates to the caller, and an exception raised by an
invoked analysis tool (here the limits calculator) also propagates. -/
theorem C3_generation_caught_retrieval_tool_propagate
    (validate : String → Bool × String × String)
    (retrieve : String → Except PyExc (List PDoc))
    (llm : String → Except PyExc String) (unesc : String → String)
    (apexTool soqlTool : String → String) (question m c : String) (e : PyExc) :
    (validate question = (true, m, c) →
      limitsCond c = false → codeCond c = false → soqlCond c = false →
      ∀ docs : List PDoc, retrieve c = .ok docs → docs ≠ [] →
      llm (ragPrompt (ragContext docs) c) = .error e →
      query validate retrieve llm unesc apexTool soqlTool question =
        .ok [("answer", .vStr apologyAnswer), ("sources", .vDocs docs),
             ("source_metadata", .vMetas (docs.map (fun dd => dd.metadata)))]) ∧
    (validate question = (true, m, c) →
      limitsCond c = false → codeCond c = false → soqlCond c = false →
      retrieve c = .error e →
      query validate retrieve llm unesc apexTool soqlTool question = .error e) ∧
    (validate question = (true, m, c) → limitsCond c = true →
      governor_limits_calculator (unesc (unesc (extractLimitsPayload c))) = .error e →
      query validate retrieve llm unesc apexTool soqlTool question = .error e) := by
  refine ⟨?_, ?_, ?_⟩
  · intro hv h1 h2 h3 docs hret hne hllm
    have h1' : ¬ limitsCond c = true := by simp [h1]
    have h2' : ¬ codeCond c = true := by simp [h2]
    have h3' : ¬ soqlCond c = true := by simp [h3]
    unfold query
    rw [hv]
    show ((do
        let frtu : Option String × Option String ←
          if limitsCond c then do
            let r ← governor_limits_calculator (unesc (unesc (extractLimitsPayload c)))
            pure (some r, some limitsLabel)
          else if codeCond c then
            pure (some (apexTool (extractApexCode c)), some apexLabel)
          else if soqlCond c then
            pure (some (soqlTool (extractSoqlQuery c)), some soqlLabel)
          else pure (none, none)
        match frtu with
        | (some fr, some tu) =>
            if !fr.data.isEmpty && !tu.data.isEmpty then do
              let docs2 ← retrieve c
              pure (toolPathResult fr tu docs2)
            else ragPath retrieve llm c
        | _ => ragPath retrieve llm c) : Except PyExc (List (String × PyVal))) = _
    rw [if_neg h1', if_neg h2', if_neg h3']
    show ragPath retrieve llm c = _
    unfold ragPath
    rw [hret]
    cases docs with
    | nil => exact absurd rfl hne
    | cons dd t =>
        show (pure [("answer", PyVal.vStr
              (match llm (ragPrompt (ragContext (dd :: t)) c) with
               | .ok r => r
               | .error _ => apologyAnswer)),
            ("sources", PyVal.vDocs (dd :: t)),
            ("source_metadata", PyVal.vMetas
              ((dd :: t).map (fun x => x.metadata)))] :
            Except PyExc (List (String × PyVal))) = _
        rw [hllm]
        rfl
  · intro hv h1 h2 h3 hret
    have h1' : ¬ limitsCond c = true := by simp [h1]
    have h2' : ¬ codeCond c = true := by simp [h2]
    have h3' : ¬ soqlCond c = true := by simp [h3]
    unfold query
    rw [hv]
    show ((do
        let frtu : Option String × Option String ←
          if limitsCond c then do
            let r ← governor_limits_calculator (unesc (unesc (extractLimitsPayload c)))
            pure (some r, some limitsLabel)
          else if codeCond c then
            pure (some (apexTool (extractApexCode c)), some apexLabel)
          else if soqlCond c then
            pure (some (soqlTool (extractSoqlQuery c)), some soqlLabel)
          else pure (none, none)
        match frtu with
        | (some fr, some tu) =>
            if !fr.data.isEmpty && !tu.data.isEmpty then do
              let docs2 ← retrieve c
              pure (toolPathResult fr tu docs2)
            else ragPath retrieve llm c
        | _ => ragPath retrieve llm c) : Except PyExc (List (String × PyVal))) = _
    rw [if_neg h1', if_neg h2', if_neg h3']
    show ragPath retrieve llm c = _
    unfold ragPath
    rw [hret]
    rfl
  · intro hv h1 hcalc
    unfold query
    rw [hv]
    show ((do
        let frtu : Option String × Option String ←
          if limitsCond c then do
            let r ← governor_limits_calculator (unesc (unesc (extractLimitsPayload c)))
            pure (some r, some limitsLabel)
          else if codeCond c then
            pure (some (apexTool (extractApexCode c)), some apexLabel)
          else if soqlCond c then
            pure (some (soqlTool (extractSoqlQuery c)), some soqlLabel)
          else pure (none, none)
        match frtu with
        | (some fr, some tu) =>
            if !fr.data.isEmpty && !tu.data.isEmpty then do
              let docs2 ← retrieve c
              pure (toolPathResult fr tu docs2)
            else ragPath retrieve llm c
        | _ => ragPath retrieve llm c) : Except PyExc (List (String × PyVal))) = _
    rw [if_pos h1, hcalc]
    rfl

def c3Retrieve : String → Except PyExc (List PDoc) := fun _ => .ok [⟨"text", []⟩]

def c3LlmErr : String → Except PyExc String := fun _ => .error (.valueError "boom")

/-- witness for C3 at concrete collaborators: a failing generation call
yields a normal result with the apology answer and the retrieved source; a
failing retrieval propagates; a raising limits tool propagates. -/
theorem C3_generation_caught_retrieval_tool_propagate_witness :
    (query c2Validate c3Retrieve c3LlmErr id id id "hello" =
      .ok [("answer", .vStr apologyAnswer), ("sources", .vDocs [⟨"text", []⟩]),
           ("source_metadata", .vMetas [[]])]) ∧
    (query c2Validate (fun _ => .error (.valueError "down")) c3LlmErr id id id
        "hello" = .error (.valueError "down")) ∧
    (query c2Validate c3Retrieve c3LlmErr id id id
        "calculate \x7b\"soql_queries\": \"abc\"\x7d" = .error typeErrorDiv) :=
  ⟨(C3_generation_caught_retrieval_tool_propagate c2Validate c3Retrieve c3LlmErr
      id id id "hello" "" "hello" (.valueError "boom")).1 rfl (by decide)
      (by decide) (by decide) [⟨"text", []⟩] rfl (by simp) rfl,
   (C3_generation_caught_retrieval_tool_propagate c2Validate
      (fun _ => .error (.valueError "down")) c3LlmErr id id id "hello" ""
      "hello" (.valueError "down")).2.1 rfl (by decide) (by decide) (by decide)
      rfl,
   (C3_generation_caught_retrieval_tool_propagate c2Validate c3Retrieve c3LlmErr
      id id id "calculate \x7b\"soql_queries\": \"abc\"\x7d" ""
      "calculate \x7b\"soql_queries\": \"abc\"\x7d" typeErrorDiv).2.2 rfl
      (by decide) rfl⟩

end SFAdvisor
